import Mathlib

/-
Verification of the FlexGet feed core (src/flexget/feed.py) against its
natural-language specification.  The Python 2 source is shallowly embedded:
mutable feed state becomes explicit state passing on a `FeedState` record,
Python exceptions become `Except`, plugin callables (external collaborators
resolved by the plugin registry, which is outside src/) are abstracted as a
registry parameter mapping each phase name to the list of plugin behaviours
that would run in that phase (i.e. `get_methods_by_phase(phase)` already
filtered by the `keyword in self.config or method.plugin.builtin` test of
feed.py lines 339-340).
-/

namespace Flexget

/--
Model of a Python 2 value stored in an entry field or passed to
`Entry.__setitem__`.  `text` is a `unicode` string; `bytes` is a `str` byte
string (a list of byte values); `other` stands for any non-string Python
object, observed by feed.py only through equality (modelled by the `id`
payload) and truthiness (the `truthy` payload).  Py2 cross-type coercion
in `==` between `str` and `unicode` is not modelled: values reaching the
feed's lists have been normalised to `unicode` by `__setitem__`.
-/
inductive Value where
  | text (s : String)
  | bytes (b : List Nat)
  | other (id : Nat) (truthy : Bool)
  deriving Repr, DecidableEq

/--
Python 2 `unicode(value)` on a `str` uses the ascii codec: it succeeds
exactly when every byte is below 128 (feed.py line 47).
-/
def decodeAscii (b : List Nat) : Option String :=
  if b.all (fun n => n < 128) then some (String.mk (b.map Char.ofNat)) else none

/--
Python 2 `isinstance(value, basestring)`: true for `str` and `unicode`
values (feed.py lines 53 and 61).
-/
def isBasestring : Value → Bool
  | Value.text _ => true
  | Value.bytes _ => true
  | Value.other _ _ => false

/--
Python truthiness of an optional field value, as used by
`entry.get('immortal')` on feed.py line 242 (`None`, empty strings and
falsy objects are false).
-/
def truthy : Option Value → Bool
  | none => false
  | some (Value.text s) => !s.isEmpty
  | some (Value.bytes b) => !b.isEmpty
  | some (Value.other _ t) => t

/--
Python `str(value)` rendering used only to build log message strings; the
exact rendering of byte strings and objects is immaterial to the claims.
-/
def strV : Value → String
  | Value.text s => s
  | Value.bytes b => String.mk (b.map Char.ofNat)
  | Value.other i _ => "object " ++ toString i

/--
Python `repr(value)` rendering used only inside `PluginError` messages;
the exact text is immaterial to the claims.
-/
def reprV : Value → String
  | Value.text s => s
  | Value.bytes b => String.mk (b.map Char.ofNat)
  | Value.other i _ => "object " ++ toString i

/--
Dict lookup `d[k]` / `d.get(k)` on the ordered association list modelling
a Python dict (keys are unique by construction of `storeKV`).
-/
def lookupKV : List (String × Value) → String → Option Value
  | [], _ => none
  | (k0, v0) :: rest, k => if k0 = k then some v0 else lookupKV rest k

/--
Dict key-containment test `k in d` (feed.py line 56).
-/
def containsKey (d : List (String × Value)) (k : String) : Bool :=
  (lookupKV d k).isSome

/--
Plain dict assignment `dict.__setitem__(self, key, value)` (feed.py
line 73): overwrite the existing binding in place, else append.
-/
def storeKV : List (String × Value) → String → Value → List (String × Value)
  | [], k, v => [(k, v)]
  | (k0, v0) :: rest, k, v =>
      if k0 = k then (k0, v) :: rest else (k0, v0) :: storeKV rest k v

/--
Errors raised by `Entry.__setitem__`: `entryUnicodeError` models
`EntryUnicodeError(key, value)` (feed.py lines 11-20, raised at line 49
with the original key and value), and `pluginError` models the
`PluginError` raised for a non-`basestring` url or title (lines 54, 62).
-/
inductive SetError where
  | entryUnicodeError (key : String) (value : Value)
  | pluginError (msg : String)
  deriving Repr, DecidableEq

/--
An entry (feed.py class `Entry`): the underlying dict plus the `trace`
attribute (a list of `(current_plugin, message)` pairs).  The `snapshots`
attribute is not modelled (no claim mentions it).  Python `==` on entries
is plain dict equality and ignores `trace`; see `entryEq`.
-/
structure Entry where
  data : List (String × Value)
  trace : List (Option String × String)
  deriving Repr, DecidableEq

/--
Embedding of `Entry.__setitem__` (feed.py lines 43-73), structurally
recursive on an explicit `fuel` bound for the single re-entrant call
`self['original_url'] = value` at line 57 (which assigns a non-`url` key
and therefore never recurses again; `Entry.setitem` supplies fuel 2,
which is exact, so the fuel-0 branch is unreachable).  `extractId`
abstracts `flexget.utils.imdb.extract_id` (line 68), an external helper
not under src/.
-/
def setitemFuel (extractId : Value → String) :
    Nat → Entry → String → Value → Except SetError Entry
  | 0, _, key, _ =>
      Except.error (SetError.pluginError ("setitem fuel exhausted at " ++ key))
  | fuel + 1, e, key, v =>
    match (match v with
           | Value.bytes b =>
             match decodeAscii b with
             | some s => Except.ok (Value.text s)
             | none => Except.error (SetError.entryUnicodeError key v)
           | _ => Except.ok v : Except SetError Value) with
    | Except.error err => Except.error err
    | Except.ok v1 =>
      match (if key = "url" then
               if isBasestring v1 = false then
                 Except.error (SetError.pluginError
                   ("Tried to set url to " ++ reprV v1))
               else if containsKey e.data "original_url" then Except.ok e
               else setitemFuel extractId fuel e "original_url" v1
             else Except.ok e : Except SetError Entry) with
      | Except.error err => Except.error err
      | Except.ok e1 =>
        if key = "title" ∧ isBasestring v1 = false then
          Except.error (SetError.pluginError ("Tried to set title to " ++ reprV v1))
        else
          let v2 := if key = "imdb_url" then
                      Value.text ("http://www.imdb.com/title/" ++ extractId v1 ++ "/")
                    else v1
          Except.ok { e1 with data := storeKV e1.data key v2 }

/--
The checked field assignment `entry[key] = value` (`Entry.__setitem__`,
feed.py lines 43-73); fuel 2 covers the one nested `original_url`
assignment exactly.
-/
def Entry.setitem (extractId : Value → String) (e : Entry) (key : String)
    (v : Value) : Except SetError Entry :=
  setitemFuel extractId 2 e key v

/--
Raw dict construction `dict.__init__(self, **kwargs)` (feed.py line 40):
the keyword bindings are inserted directly, bypassing `__setitem__`.
-/
def rawDictInit (kwargs : List (String × Value)) : List (String × Value) :=
  kwargs.foldl (fun d kv => storeKV d kv.1 kv.2) []

/--
Embedding of `Entry.__init__` (feed.py lines 33-41): two positional
arguments become the `title` and `url` keyword arguments, then the dict
is initialised directly through `dict.__init__` with no `__setitem__`
checks.  Positional argument lists of any other nonzero length would make
`dict.__init__` raise a `TypeError` for the `Value`s modelled here (none
of them is a mapping or pair iterable), hence `none`.
-/
def entryInit (args : List Value) (kwargs : List (String × Value)) : Option Entry :=
  match args with
  | [t, u] =>
      some { data := rawDictInit (storeKV (storeKV kwargs "title" t) "url" u),
             trace := [] }
  | [] => some { data := rawDictInit kwargs, trace := [] }
  | _ => none

/--
Python `==` between two dicts: same keys, each bound to equal values
(order-insensitive).
-/
def dictEq (a b : List (String × Value)) : Bool :=
  (a.all fun kv => lookupKV b kv.1 == some kv.2) &&
  (b.all fun kv => lookupKV a kv.1 == some kv.2)

/--
Python `==` between entries: `Entry` subclasses `dict` without overriding
`__eq__`, so entry equality is dict equality of the contents and ignores
the `trace` attribute.
-/
def entryEq (a b : Entry) : Bool :=
  dictEq a.data b.data

/--
Python membership `entry in lst` on a feed list: linear scan under `==`.
-/
def inList (l : List Entry) (e : Entry) : Bool :=
  l.any fun x => entryEq x e

/--
Python `lst.remove(entry)`: remove the first element `==` to `entry`
(callers in feed.py guard with `entry in lst`, so the absent case never
raises).
-/
def removeFirst : List Entry → Entry → List Entry
  | [], _ => []
  | x :: rest, e => if entryEq x e then rest else x :: removeFirst rest e

/--
Embedding of `Feed.__purge(purge_what, purge_from)` (feed.py lines
207-212): for each entry of `purge_what`, remove its first `==`
occurrence from `purge_from` if present.
-/
def purgeList (what lfrom : List Entry) : List Entry :=
  what.foldl (fun acc e => if inList acc e then removeFirst acc e else acc) lfrom

/--
Behaviour of one plugin invocation, the only effects of a plugin callable
that feed.py itself observes: return normally (possibly handing back new
entries, line 365-367), call `feed.abort()` (also the collapsed outcome
of the `EntryUnicodeError` / `PluginError` / `DependencyError` handlers
of lines 377-387, which log and call `self.abort()` and then fall through
to the purge and abort check), call `feed.rerun()` (lines 402-405), or
raise an unhandled exception (lines 388-393: log, `self.abort()`, and
re-raise only under `manager.unit_test`).  `PluginWarning` (lines
370-376) only logs, i.e. behaves as `nop`.
-/
inductive Act where
  | nop
  | returnEntries (es : List Entry)
  | callAbort
  | callRerun
  | raiseBug
  deriving Repr, DecidableEq

/--
One registered plugin method: its keyword name and its behaviour.
-/
structure PluginSpec where
  name : String
  act : Act
  deriving Repr, DecidableEq

/--
The plugin registry, abstracting `get_methods_by_phase(phase)` (external,
flexget/plugin.py is not under src/) already restricted to the methods
that pass the `keyword in self.config or method.plugin.builtin` test of
feed.py lines 339-340.  All theorems below hold for every registry.
-/
abbrev Registry := String → List PluginSpec

/--
The entry-lifecycle phases of feed.py line 319.
-/
def entry_events : List String := ["accept", "reject", "fail"]

/--
Feed execution state (the mutable attributes of class `Feed` reset by
`Feed._reset`, lines 155-179, plus the session bookkeeping of
`Feed.execute` and ghost logs).  `raised` records an exception
propagating out of a plugin call under `manager.unit_test`; `unitTest`
mirrors `self.manager.unit_test`; `sessionOpen` / `committed` / `closed`
mirror the unit-of-work calls `Session()` / `session.commit()` /
`session.close()` of lines 439-466.  The `priority` and `enabled`
attributes also reset by `_reset` are read by no code under
verification and are not modelled.  Ghost fields, written but never
read by the embedded code: `logs` (log messages), `phaseRuns` (each
`__run_phase` invocation), `pluginRuns` (each plugin call with its
phase), `phasesStarted` (each main-loop phase handed to `__run_phase` by
`Feed.execute`).
-/
structure FeedState where
  entries : List Entry
  accepted : List Entry
  rejected : List Entry
  failed : List Entry
  disabledPhases : List String
  aborted : Bool
  rerun : Bool
  raised : Bool
  unitTest : Bool
  currentPhase : Option String
  currentPlugin : Option String
  sessionOpen : Bool
  committed : Bool
  closed : Bool
  logs : List String
  phaseRuns : List String
  pluginRuns : List (String × String)
  phasesStarted : List String
  deriving Repr, DecidableEq

/--
The state produced by `Feed._reset` (feed.py lines 155-179) at the start
of each execution pass; `_rerun_count` is deliberately not part of this
state (line 149-150, it survives `_reset`) and is threaded separately.
-/
def initialState (ut : Bool) : FeedState :=
  { entries := [], accepted := [], rejected := [], failed := []
    disabledPhases := [], aborted := false, rerun := false, raised := false
    unitTest := ut, currentPhase := none, currentPlugin := none
    sessionOpen := false, committed := false, closed := false
    logs := [], phaseRuns := [], pluginRuns := [], phasesStarted := [] }

/--
Embedding of `Feed.purge` (feed.py lines 187-205) on the feed state:
first purge failed entries from `entries`, `rejected` and `accepted`
(`__purge_failed`), then purge rejected entries from `entries` and
`accepted` (`__purge_rejected`).
-/
def purgeFailedF (s : FeedState) : FeedState :=
  { s with entries := purgeList s.failed s.entries
           rejected := purgeList s.failed s.rejected
           accepted := purgeList s.failed s.accepted }

/--
Embedding of `Feed.__purge_rejected` (feed.py lines 202-205).
-/
def purgeRejectedF (s : FeedState) : FeedState :=
  { s with entries := purgeList s.rejected s.entries
           accepted := purgeList s.rejected s.accepted }

/--
Embedding of `Feed.purge` (feed.py lines 187-194): the failed purge runs
before the rejected purge.
-/
def purgeF (s : FeedState) : FeedState :=
  purgeRejectedF (purgeFailedF s)

/--
Bookkeeping done just before a plugin is called (feed.py lines 342-345:
`current_phase` and `current_plugin` are stored except during entry
events) together with the ghost record of the plugin invocation.  The
`feed.execute.before_plugin` / `after_plugin` notifications (lines 354,
369) are fire-and-forget externals and are not modelled.
-/
def markPlugin (phase : String) (p : PluginSpec) (s : FeedState) : FeedState :=
  { s with pluginRuns := s.pluginRuns ++ [(phase, p.name)]
           currentPhase := if entry_events.contains phase then s.currentPhase
                           else some phase
           currentPlugin := if entry_events.contains phase then s.currentPlugin
                            else some p.name }

/--
The state change performed by `Feed.abort` (feed.py lines 266-276) when
the `_abort` flag is not yet set, up to and including entering
`__run_phase('abort')`: log, set `_abort`, and record the abort phase
invocation (the ghost `phaseRuns` entry written by every `__run_phase`
call).
-/
def abortMark (s : FeedState) : FeedState :=
  { s with aborted := true
           logs := s.logs ++ ["Aborting feed"]
           phaseRuns := s.phaseRuns ++ ["abort"] }

/--
Effect of one plugin call on the feed state (feed.py lines 349-393),
parameterised by `abortRun`, the action of `Feed.abort` when the plugin
calls it (abort itself re-enters `__run_phase('abort')`, so the caller
`runPhaseList` ties this knot; lines 266-276 are inlined here: a second
abort is a no-op, otherwise the flag is set and the abort phase runs).
An unhandled exception (`raiseBug`) logs, aborts, and re-raises only
under `manager.unit_test` (lines 388-393); `callRerun` is
`Feed.rerun` (lines 402-405).
-/
def actStep (abortRun : FeedState → FeedState) (phase : String)
    (p : PluginSpec) (s1 : FeedState) : FeedState :=
  match p.act with
  | Act.nop => s1
  | Act.returnEntries es =>
      if entry_events.contains phase then s1
      else { s1 with entries := s1.entries ++ es }
  | Act.callRerun =>
      { s1 with rerun := true
                logs := s1.logs ++ ["Plugin has marked feed to be ran again"] }
  | Act.callAbort =>
      if s1.aborted then s1 else abortRun (abortMark s1)
  | Act.raiseBug =>
      let sA := if s1.aborted then s1 else abortRun (abortMark s1)
      if s1.unitTest then { sA with raised := true } else sA

/--
Embedding of the plugin loop of `Feed.__run_phase` (feed.py lines
335-400), structurally recursive on an explicit `fuel` that bounds the
number of plugin invocations (each theorem either holds for every fuel or
states the fuel it needs).  Per iteration: stop if the phase has been
disabled (line 337), record and call the plugin (lines 339-393, see
`markPlugin` and `actStep`; a `feed.abort()` call re-enters this function
on the abort phase), propagate an unhandled exception (line 393), purge
between plugins except during entry events (lines 395-397), and stop
when the abort flag is set unless the abort phase itself is running
(lines 398-400).
-/
def runPhaseList (reg : Registry) :
    Nat → String → List PluginSpec → FeedState → FeedState
  | 0, _, _, s => s
  | fuel + 1, phase, ps, s =>
    match ps with
    | [] => s
    | p :: rest =>
      if s.disabledPhases.contains phase then s
      else
        let s2 := actStep (runPhaseList reg fuel "abort" (reg "abort")) phase p
          (markPlugin phase p s)
        if s2.raised then s2
        else
          let s3 := if entry_events.contains phase then s2 else purgeF s2
          if s3.aborted && !(phase == "abort") then s3
          else runPhaseList reg fuel phase rest s3

/--
Embedding of `Feed.__run_phase(phase, ...)` (feed.py lines 316-400):
record the invocation (ghost) and run the registered plugin methods.
The entry/kwargs arguments forwarded to entry-event plugins only reach
the plugin callables and are absorbed by the `Act` abstraction; the
log-only missing-filter/output warning of lines 326-333 and the
entry-event precondition check of lines 320-322 (its callers in feed.py
always pass an entry) are not modelled.
-/
def runPhase (reg : Registry) (fuel : Nat) (phase : String) (s : FeedState) :
    FeedState :=
  runPhaseList reg fuel phase (reg phase) { s with phaseRuns := s.phaseRuns ++ [phase] }

/--
Embedding of `Feed.abort` (feed.py lines 266-276): a second call is a
no-op (lines 268-269); otherwise log, set `_abort`, and run the abort
lifecycle phase.
-/
def abortFn (reg : Registry) (fuel : Nat) (s : FeedState) : FeedState :=
  if s.aborted then s
  else runPhaseList reg fuel "abort" (reg "abort") (abortMark s)

/--
Embedding of `Feed.accept` (feed.py lines 226-235): a debug log when the
entry is already rejected (line 230-231, no early return), then append to
`accepted` and run the accept lifecycle phase exactly when the entry is
in neither `accepted` nor `rejected` (lines 232-235).  The `isinstance`
guard of line 228 is vacuous here since the argument is an `Entry`.
-/
def Feed.accept (reg : Registry) (fuel : Nat) (s : FeedState) (entry : Entry) :
    FeedState :=
  let s0 := if inList s.rejected entry then
              { s with logs := s.logs ++ ["tried to accept rejected"] }
            else s
  if !(inList s0.accepted entry) && !(inList s0.rejected entry) then
    runPhase reg fuel "accept" { s0 with accepted := s0.accepted ++ [entry] }
  else s0

/--
Python `'(%s)' % reason if reason else ''` (feed.py line 243): `None` and
the empty string are falsy.
-/
def reasonStr : Option String → String
  | none => ""
  | some r => if r = "" then "" else "(" ++ r ++ ")"

/--
Embedding of `Feed.reject` (feed.py lines 237-251).  An immortal entry's
rejection is suppressed: only a log message (line 244, which reads
`entry['title']` and hence raises `KeyError` if the entry has no title —
the `Except.error` case) and a trace entry (line 245, `Feed.trace`
appends `(current_plugin, message)` to the entry's `trace` attribute)
are produced.  Otherwise the entry is appended to `rejected` and the
reject lifecycle phase runs, unless it is already rejected.  The mutated
entry is returned alongside the feed state (value-level stand-in for the
in-place `entry.trace` mutation).
-/
def Feed.reject (reg : Registry) (fuel : Nat) (s : FeedState) (entry : Entry)
    (reason : Option String) : Except String (FeedState × Entry) :=
  if truthy (lookupKV entry.data "immortal") then
    match lookupKV entry.data "title" with
    | none => Except.error "KeyError: title"
    | some t =>
      let rs := reasonStr reason
      Except.ok
        ({ s with logs := s.logs ++ ["Tried to reject immortal " ++ strV t ++ " " ++ rs] },
         { entry with trace := entry.trace ++ [(s.currentPlugin, "Tried to reject immortal " ++ rs)] })
  else if inList s.rejected entry then Except.ok (s, entry)
  else
    Except.ok (runPhase reg fuel "reject" { s with rejected := s.rejected ++ [entry] }, entry)

/--
Embedding of the phase loop of `Feed.execute` (feed.py lines 443-459):
iterate the fixed phase order, skip disabled phases (lines 444-451; the
informational logging of skipped plugins is not modelled), run the phase,
propagate an unhandled exception, and stop as soon as the abort flag is
set (lines 456-459).  The phase list parameter abstracts the external
`feed_phases` enumeration; every theorem holds for any phase order.
-/
def executePhases (reg : Registry) (fuel : Nat) :
    List String → FeedState → FeedState
  | [], s => s
  | ph :: rest, s =>
    if s.disabledPhases.contains ph then executePhases reg fuel rest s
    else
      let s1 := runPhase reg fuel ph { s with phasesStarted := s.phasesStarted ++ [ph] }
      if s1.raised then s1
      else if s1.aborted then s1
      else executePhases reg fuel rest s1

/--
Embedding of the unit-of-work section of `Feed.execute` (feed.py lines
438-466): open the session, run the phase loop, and in the `finally`
block always close the session; `session.commit()` (line 462) runs only
when the loop finished without abort and without a propagating
exception.  The `feed.execute.completed` notification (line 463) is
fire-and-forget and not modelled.
-/
def runPass (reg : Registry) (fuel : Nat) (phases : List String)
    (s : FeedState) : FeedState :=
  let r := executePhases reg fuel phases { s with sessionOpen := true }
  if r.raised then { r with closed := true }
  else if r.aborted then { r with closed := true }
  else { r with committed := true, closed := true }

/--
The rerun bound `Feed.max_reruns` (feed.py line 116).
-/
def max_reruns : Nat := 5

/--
Embedding of `Feed.disable_phase` (feed.py lines 214-224): raise
`ValueError` for a name outside the phase enumeration, and append the
phase to `disabled_phases` if not already present.
-/
def disable_phase (phases : List String) (s : FeedState) (ph : String) :
    Except String FeedState :=
  if phases.contains ph = false then Except.error (ph ++ " is not a valid phase")
  else if s.disabledPhases.contains ph then Except.ok s
  else Except.ok { s with disabledPhases := s.disabledPhases ++ [ph] }

/--
Options of the manager observed by `Feed.execute` and `Feed.validate`:
`validateMode` is `manager.options.validate` (line 433) and `unitTest` is
`manager.unit_test` (line 431).
-/
structure Options where
  validateMode : Bool
  unitTest : Bool
  deriving Repr, DecidableEq

/--
Result of one (possibly rerun-chained) `Feed.execute` call: the final
feed state, the final `_rerun_count`, and the ghost number of phase-loop
passes executed.
-/
structure ExecOut where
  final : FeedState
  rerunCount : Nat
  passes : Nat
  deriving Repr, DecidableEq

/--
The preamble of one `Feed.execute` pass (feed.py lines 416-429): reset
the per-pass state (line 418; `_rerun_count` is preserved), apply the
caller-supplied phase disables (lines 420-421, `ValueError` on an
unknown name), seed caller-supplied entries and disable the input phase
(lines 422-425), and run validation (lines 427-429): the outcome list of
the external per-plugin validators is abstracted as `validateErrors`, and
`Feed.validate` (lines 490-500) calls `self.abort()` when it is
non-empty.
-/
def preparePass (reg : Registry) (fuel : Nat) (phases : List String)
    (validateErrors : List String) (disableArg : List String)
    (entriesArg : List Entry) (ut : Bool) : Except String FeedState := do
  let s0 := initialState ut
  let s1 ← disableArg.foldlM (disable_phase phases) s0
  let s2 ← if entriesArg ≠ [] then
             (disable_phase phases s1 "input").map
               (fun s => { s with entries := s.entries ++ entriesArg })
           else Except.ok s1
  if validateErrors ≠ [] then Except.ok (abortFn reg fuel s2) else Except.ok s2

/--
Embedding of `Feed.execute` (feed.py lines 407-477), recursive on an
explicit `gas` that bounds the rerun recursion depth (`Feed.execute`
supplies `max_reruns + 1 - rerunCount`, which the proofs show is exact,
so the gas-0 branch is unreachable).  After the preamble: return if the
validation aborted (lines 429-430), raise under unit test with config
errors (lines 431-432, dead code given the earlier return), return in
validate-only mode (lines 433-436), run the unit-of-work pass (lines
438-466), propagate an unhandled exception, skip the rerun block when
the pass aborted (lines 456-459), and otherwise honour a requested
rerun (lines 468-477): reset the counter to zero once it has reached
`max_reruns`, else increment it and recurse with the same arguments.
-/
def executeAux (reg : Registry) (fuel : Nat) (phases : List String)
    (opts : Options) (validateErrors : List String) (disableArg : List String)
    (entriesArg : List Entry) : Nat → Nat → Except String ExecOut
  | 0, _ => Except.error "rerun gas exhausted"
  | gas + 1, rc =>
    match preparePass reg fuel phases validateErrors disableArg entriesArg
            opts.unitTest with
    | Except.error e => Except.error e
    | Except.ok s3 =>
      if s3.aborted then Except.ok ⟨s3, rc, 0⟩
      else if validateErrors ≠ [] ∧ opts.unitTest then
        Except.error "configuration errors"
      else if opts.validateMode then Except.ok ⟨s3, rc, 0⟩
      else
        let r := runPass reg fuel phases s3
        if r.raised then Except.error "unhandled plugin exception"
        else if r.aborted then Except.ok ⟨r, rc, 1⟩
        else if r.rerun then
          if max_reruns ≤ rc then Except.ok ⟨r, 0, 1⟩
          else
            match executeAux reg fuel phases opts validateErrors disableArg
                    entriesArg gas (rc + 1) with
            | Except.error e => Except.error e
            | Except.ok out => Except.ok ⟨out.final, out.rerunCount, out.passes + 1⟩
        else Except.ok ⟨r, rc, 1⟩

/--
`Feed.execute` entered with the current `_rerun_count` (0 on a fresh
feed, line 150).
-/
def Feed.execute (reg : Registry) (fuel : Nat) (phases : List String)
    (opts : Options) (validateErrors : List String) (disableArg : List String)
    (entriesArg : List Entry) (rerunCount : Nat) : Except String ExecOut :=
  executeAux reg fuel phases opts validateErrors disableArg entriesArg
    (max_reruns + 1 - rerunCount) rerunCount

/--
Outcome of resolving one configuration keyword, abstracting the external
plugin registry and validator engine used by `Feed.validate_config`:
`unknown` models `get_plugin_by_name` raising (feed.py lines 514-518),
`noValidator` the missing-`validator`-attribute branch (lines 532-533,
warning only), `validatorTypeError` a validator constructor raising
`TypeError` (lines 520-525, logged and skipped), and `validates ok msgs`
a constructed validator whose `validate` call returned `ok` with error
messages `msgs` collected on failure (lines 526-531).
-/
inductive PluginLookup where
  | unknown
  | noValidator
  | validatorTypeError
  | validates (ok : Bool) (msgs : List String)
  deriving Repr, DecidableEq

/--
A Python value passed to `Feed.validate_config`: either not a dict
(line 507), or a dict with the given top-level keys (the per-key
sub-configurations are absorbed into the `PluginLookup` outcomes).
-/
inductive PyConfig where
  | notDict
  | dict (keys : List String)
  deriving Repr, DecidableEq

/--
Python `keyword.startswith('_')` (feed.py line 512): the first character
of the keyword is an underscore.  (`String.startsWith` itself does not
reduce inside the kernel, so the one-character prefix test is spelled
out on the character list.)
-/
def startsWithUnderscore (kw : String) : Bool :=
  kw.data.head? == some '_'

/--
One iteration of the keyword loop of `Feed.validate_config` (feed.py
lines 511-533), accumulating onto `validate_errors`: keys starting with
an underscore are skipped, an unresolvable keyword appends an
unknown-plugin error, a missing or broken validator only logs, and
validator failures append one `<keyword> <message>` error per message.
-/
def validateStep (lookup : String → PluginLookup) (acc : List String)
    (kw : String) : List String :=
  if startsWithUnderscore kw then acc
  else
    match lookup kw with
    | PluginLookup.unknown => acc ++ ["Unknown plugin \x27" ++ kw ++ "\x27"]
    | PluginLookup.noValidator => acc
    | PluginLookup.validatorTypeError => acc
    | PluginLookup.validates ok msgs =>
      if ok then acc else acc ++ msgs.map (fun m => kw ++ " " ++ m)

/--
Embedding of the static method `Feed.validate_config` (feed.py lines
502-535): a non-dict config yields one blocking error; otherwise each
top-level key is processed in order by `validateStep`.
-/
def Feed.validate_config (lookup : String → PluginLookup) (config : PyConfig) :
    List String :=
  match config with
  | PyConfig.notDict => ["Config is not a dictionary."]
  | PyConfig.dict keys => keys.foldl (validateStep lookup) []

/--
Modelled from the spec: the fixed ordered phase enumeration
`feed_phases` (defined in flexget/plugin.py, which is not under src/);
§6 of the spec gives the example order used here.  The claim theorems
are parameterised over an arbitrary phase list; this concrete list is
used only to instantiate witnesses.
-/
def feedPhasesExample : List String :=
  ["input", "metainfo", "filter", "download", "modify", "output", "exit"]

/--
Decidable equality for `Except` results, used to state concrete witness
facts about the embedded fallible operations.
-/
instance {ε α : Type} [DecidableEq ε] [DecidableEq α] : DecidableEq (Except ε α) :=
  fun a b =>
    match a, b with
    | Except.error e1, Except.error e2 =>
      if h : e1 = e2 then Decidable.isTrue (by simp [h])
      else Decidable.isFalse (by simp [h])
    | Except.ok v1, Except.ok v2 =>
      if h : v1 = v2 then Decidable.isTrue (by simp [h])
      else Decidable.isFalse (by simp [h])
    | Except.error _, Except.ok _ => Decidable.isFalse (by simp)
    | Except.ok _, Except.error _ => Decidable.isFalse (by simp)

/--
Registry fixture for the claim C9 witness: only the keyword `deluge`
fails to resolve.
-/
def c9Lookup : String → PluginLookup := fun kw =>
  if kw = "deluge" then PluginLookup.unknown else PluginLookup.noValidator

/--
Registry fixture for the claim C3 witness: the filter plugin aborts the
feed.
-/
def c3Reg : Registry := fun ph =>
  if ph = "filter" then [⟨"abort_plugin", Act.callAbort⟩]
  else if ph = "abort" then [⟨"cleanup", Act.nop⟩]
  else []

/--
Registry fixture for the claim C2 witness: the filter plugin aborts and
two cleanup plugins are registered on the abort phase.
-/
def c2Reg : Registry := fun ph =>
  if ph = "filter" then [⟨"abort_plugin", Act.callAbort⟩]
  else if ph = "abort" then [⟨"cleanup1", Act.nop⟩, ⟨"cleanup2", Act.callAbort⟩]
  else [⟨"other", Act.nop⟩]

/--
Registry fixture for the claim C1 witness: the input plugin requests a
rerun on every pass.
-/
def c1Reg : Registry := fun ph =>
  if ph = "input" then [⟨"rerun_plugin", Act.callRerun⟩] else []

theorem validateStep_append (lookup : String → PluginLookup) (acc : List String)
    (kw : String) :
    validateStep lookup acc kw = acc ++ validateStep lookup [] kw := by
  unfold validateStep
  by_cases h : startsWithUnderscore kw = true
  · simp [h]
  · simp only [h]
    cases hl : lookup kw <;> simp
    next ok msgs => cases ok <;> simp

theorem validateFold_append (lookup : String → PluginLookup) :
    ∀ (keys : List String) (acc : List String),
      keys.foldl (validateStep lookup) acc =
        acc ++ keys.foldl (validateStep lookup) [] := by
  intro keys
  induction keys with
  | nil => intro acc; simp
  | cons k ks ih =>
    intro acc
    simp only [List.foldl_cons]
    rw [ih (validateStep lookup acc k), ih (validateStep lookup [] k),
      validateStep_append lookup acc k, List.append_assoc]

/--
Claim C9: `validate_config` returns a non-empty error list when the
config is not a mapping; for a mapping it reports an unknown-plugin
error for every top-level key that does not start with an underscore and
does not resolve to a registered plugin, and keys starting with an
underscore are skipped entirely (removing them does not change the
result).
-/
theorem claim_C9_validate_config (lookup : String → PluginLookup) :
    (Feed.validate_config lookup PyConfig.notDict ≠ [])
    ∧ (∀ (keys : List String) (kw : String), kw ∈ keys →
        startsWithUnderscore kw = false → lookup kw = PluginLookup.unknown →
        ("Unknown plugin \x27" ++ kw ++ "\x27") ∈
          Feed.validate_config lookup (PyConfig.dict keys))
    ∧ (∀ keys : List String,
        Feed.validate_config lookup
            (PyConfig.dict (keys.filter (fun k => !startsWithUnderscore k))) =
          Feed.validate_config lookup (PyConfig.dict keys)) := by
  refine ⟨by simp [Feed.validate_config], ?_, ?_⟩
  · intro keys kw hmem hund hunk
    simp only [Feed.validate_config]
    induction keys with
    | nil => cases hmem
    | cons k ks ih =>
      simp only [List.foldl_cons]
      rw [validateFold_append lookup ks (validateStep lookup [] k)]
      rcases List.mem_cons.mp hmem with h | h
      · subst h
        apply List.mem_append_left
        simp [validateStep, hund, hunk]
      · exact List.mem_append_right _ (ih h)
  · intro keys
    simp only [Feed.validate_config]
    induction keys with
    | nil => rfl
    | cons k ks ih =>
      by_cases h : startsWithUnderscore k = true
      · simpa [h, validateStep] using ih
      · simp only [List.filter_cons, h, Bool.not_false, if_pos, List.foldl_cons]
        rw [validateFold_append lookup _ (validateStep lookup [] k),
          validateFold_append lookup ks (validateStep lookup [] k), ih]

/--
Claim C10: constructing an `Entry` with title and url (two positional
arguments or keyword arguments) stores the fields through the plain dict
initializer: `original_url` is not set and no title/url text-type or
encoding check is applied (the values are stored unchanged whatever they
are).
-/
theorem claim_C10_entry_init_raw : ∀ t u : Value,
    entryInit [t, u] [] =
        some { data := [("title", t), ("url", u)], trace := [] }
    ∧ entryInit [] [("title", t), ("url", u)] =
        some { data := [("title", t), ("url", u)], trace := [] }
    ∧ containsKey [("title", t), ("url", u)] "original_url" = false := by
  intro t u
  refine ⟨?_, ?_, ?_⟩ <;>
    simp [entryInit, rawDictInit, storeKV, containsKey, lookupKV]

theorem storeKV_lookup_self (d : List (String × Value)) (k : String) (v : Value) :
    lookupKV (storeKV d k v) k = some v := by
  induction d with
  | nil => simp [storeKV, lookupKV]
  | cons kv rest ih =>
    obtain ⟨k0, v0⟩ := kv
    by_cases h : k0 = k <;> simp [storeKV, lookupKV, h, ih]

theorem storeKV_lookup_ne (d : List (String × Value)) (k k2 : String) (v : Value)
    (h : k2 ≠ k) : lookupKV (storeKV d k v) k2 = lookupKV d k2 := by
  induction d with
  | nil => simp [storeKV, lookupKV, Ne.symm h]
  | cons kv rest ih =>
    obtain ⟨k0, v0⟩ := kv
    by_cases h0 : k0 = k
    · subst h0
      simp [storeKV, lookupKV, Ne.symm h]
    · by_cases h2 : k0 = k2 <;> simp [storeKV, lookupKV, h0, h2, ih, h]

theorem setitem_bytes_undecodable (ex : Value → String) (e : Entry) (key : String)
    (b : List Nat) (hd : decodeAscii b = none) :
    Entry.setitem ex e key (Value.bytes b) =
      Except.error (SetError.entryUnicodeError key (Value.bytes b)) := by
  simp [Entry.setitem, setitemFuel, hd]

theorem setitem_bytes_decodable (ex : Value → String) (e : Entry) (key : String)
    (b : List Nat) (s : String) (hd : decodeAscii b = some s) :
    Entry.setitem ex e key (Value.bytes b) = Entry.setitem ex e key (Value.text s) := by
  simp [Entry.setitem, setitemFuel, hd]

theorem setitem_url_text_first (ex : Value → String) (e : Entry) (s : String)
    (hc : containsKey e.data "original_url" = false) :
    Entry.setitem ex e "url" (Value.text s) =
      Except.ok { e with data := storeKV (storeKV e.data "original_url" (Value.text s)) "url" (Value.text s) } := by
  simp [Entry.setitem, setitemFuel, isBasestring, hc]

theorem setitem_url_text_later (ex : Value → String) (e : Entry) (s : String)
    (hc : containsKey e.data "original_url" = true) :
    Entry.setitem ex e "url" (Value.text s) =
      Except.ok { e with data := storeKV e.data "url" (Value.text s) } := by
  simp [Entry.setitem, setitemFuel, isBasestring, hc]

theorem setitem_url_other (ex : Value → String) (e : Entry) (i : Nat) (t : Bool) :
    Entry.setitem ex e "url" (Value.other i t) =
      Except.error (SetError.pluginError ("Tried to set url to " ++ reprV (Value.other i t))) := by
  simp [Entry.setitem, setitemFuel, isBasestring]

theorem setitem_title_text (ex : Value → String) (e : Entry) (s : String) :
    Entry.setitem ex e "title" (Value.text s) =
      Except.ok { e with data := storeKV e.data "title" (Value.text s) } := by
  simp [Entry.setitem, setitemFuel, isBasestring]

theorem setitem_title_other (ex : Value → String) (e : Entry) (i : Nat) (t : Bool) :
    Entry.setitem ex e "title" (Value.other i t) =
      Except.error (SetError.pluginError ("Tried to set title to " ++ reprV (Value.other i t))) := by
  simp [Entry.setitem, setitemFuel, isBasestring]

theorem setitem_imdb_text (ex : Value → String) (e : Entry) (s : String) :
    Entry.setitem ex e "imdb_url" (Value.text s) =
      Except.ok { e with data := storeKV e.data "imdb_url" (Value.text ("http://www.imdb.com/title/" ++ ex (Value.text s) ++ "/")) } := by
  simp [Entry.setitem, setitemFuel, isBasestring]

theorem setitem_imdb_other (ex : Value → String) (e : Entry) (i : Nat) (t : Bool) :
    Entry.setitem ex e "imdb_url" (Value.other i t) =
      Except.ok { e with data := storeKV e.data "imdb_url" (Value.text ("http://www.imdb.com/title/" ++ ex (Value.other i t) ++ "/")) } := by
  simp [Entry.setitem, setitemFuel, isBasestring]

theorem setitem_plain_text (ex : Value → String) (e : Entry) (key : String) (s : String)
    (h1 : key ≠ "url") (h2 : key ≠ "title") (h3 : key ≠ "imdb_url") :
    Entry.setitem ex e key (Value.text s) =
      Except.ok { e with data := storeKV e.data key (Value.text s) } := by
  simp [Entry.setitem, setitemFuel, isBasestring, h1, h2, h3]

theorem setitem_plain_other (ex : Value → String) (e : Entry) (key : String) (i : Nat) (t : Bool)
    (h1 : key ≠ "url") (h2 : key ≠ "title") (h3 : key ≠ "imdb_url") :
    Entry.setitem ex e key (Value.other i t) =
      Except.ok { e with data := storeKV e.data key (Value.other i t) } := by
  simp [Entry.setitem, setitemFuel, isBasestring, h1, h2, h3]

/--
Claim C6: assigning the `url` field for the first time through
`Entry.__setitem__` also stores `original_url` with the same value, and
any later `url` assignment (one made while `original_url` is present)
never alters `original_url`.
-/
theorem claim_C6_original_url (ex : Value → String) :
    (∀ (e : Entry) (v : Value) (e2 : Entry),
        containsKey e.data "original_url" = false →
        Entry.setitem ex e "url" v = Except.ok e2 →
        lookupKV e2.data "original_url" = lookupKV e2.data "url" ∧
        lookupKV e2.data "url" ≠ none)
    ∧ (∀ (e : Entry) (v : Value) (e2 : Entry) (w : Value),
        lookupKV e.data "original_url" = some w →
        Entry.setitem ex e "url" v = Except.ok e2 →
        lookupKV e2.data "original_url" = some w) := by
  have hne : ("original_url" : String) ≠ "url" := by decide
  constructor
  · intro e v e2 h1 h2
    rcases v with s | b | ⟨i, t⟩
    · rw [setitem_url_text_first ex e s h1] at h2
      simp only [Except.ok.injEq] at h2
      subst h2
      rw [show ({ e with data := storeKV (storeKV e.data "original_url" (Value.text s)) "url" (Value.text s) } : Entry).data =
            storeKV (storeKV e.data "original_url" (Value.text s)) "url" (Value.text s) from rfl]
      rw [storeKV_lookup_ne _ "url" "original_url" _ hne, storeKV_lookup_self,
        storeKV_lookup_self]
      simp
    · rcases hd : decodeAscii b with _ | s
      · rw [setitem_bytes_undecodable ex e "url" b hd] at h2
        simp at h2
      · rw [setitem_bytes_decodable ex e "url" b s hd,
          setitem_url_text_first ex e s h1] at h2
        simp only [Except.ok.injEq] at h2
        subst h2
        rw [show ({ e with data := storeKV (storeKV e.data "original_url" (Value.text s)) "url" (Value.text s) } : Entry).data =
              storeKV (storeKV e.data "original_url" (Value.text s)) "url" (Value.text s) from rfl]
        rw [storeKV_lookup_ne _ "url" "original_url" _ hne, storeKV_lookup_self,
          storeKV_lookup_self]
        simp
    · rw [setitem_url_other ex e i t] at h2
      simp at h2
  · intro e v e2 w h1 h2
    have hc : containsKey e.data "original_url" = true := by
      simp [containsKey, h1]
    rcases v with s | b | ⟨i, t⟩
    · rw [setitem_url_text_later ex e s hc] at h2
      simp only [Except.ok.injEq] at h2
      subst h2
      rw [show ({ e with data := storeKV e.data "url" (Value.text s) } : Entry).data =
            storeKV e.data "url" (Value.text s) from rfl]
      rw [storeKV_lookup_ne _ "url" "original_url" _ hne]
      exact h1
    · rcases hd : decodeAscii b with _ | s
      · rw [setitem_bytes_undecodable ex e "url" b hd] at h2
        simp at h2
      · rw [setitem_bytes_decodable ex e "url" b s hd,
          setitem_url_text_later ex e s hc] at h2
        simp only [Except.ok.injEq] at h2
        subst h2
        rw [show ({ e with data := storeKV e.data "url" (Value.text s) } : Entry).data =
              storeKV e.data "url" (Value.text s) from rfl]
        rw [storeKV_lookup_ne _ "url" "original_url" _ hne]
        exact h1
    · rw [setitem_url_other ex e i t] at h2
      simp at h2

/--
Witness for claim C6 at a concrete input: a fresh entry assigned
`url := "http://x"` stores `original_url` alongside.
-/
theorem claim_C6_original_url_witness :
    lookupKV ({ data := [("original_url", Value.text "http://x"), ("url", Value.text "http://x")], trace := [] } : Entry).data "original_url" =
      lookupKV ({ data := [("original_url", Value.text "http://x"), ("url", Value.text "http://x")], trace := [] } : Entry).data "url" ∧
    lookupKV ({ data := [("original_url", Value.text "http://x"), ("url", Value.text "http://x")], trace := [] } : Entry).data "url" ≠ none :=
  (claim_C6_original_url (fun _ => "")).1 ⟨[], []⟩ (Value.text "http://x")
    ⟨[("original_url", Value.text "http://x"), ("url", Value.text "http://x")], []⟩
    rfl rfl

/--
Witness for claim C9 at a concrete input: an unresolvable keyword is
reported and a non-dict config is rejected.
-/
theorem claim_C9_validate_config_witness :
    ("Unknown plugin \x27deluge\x27" ∈
      Feed.validate_config c9Lookup (PyConfig.dict ["_internal", "deluge"]))
    ∧ Feed.validate_config c9Lookup PyConfig.notDict ≠ [] :=
  ⟨(claim_C9_validate_config c9Lookup).2.1 ["_internal", "deluge"] "deluge"
      (by simp) (by decide) rfl,
    (claim_C9_validate_config c9Lookup).1⟩


/--
Claim C7: `Entry.__setitem__` fails with the `TypeError`-class
`PluginError` (the spec's `InvalidFieldValue`) exactly when the key is
`title` or `url` and the value is not a string (`basestring`), fails with
`EntryUnicodeError` carrying the offending key and value exactly when the
value is byte data that does not decode to text, and stores a value in
every other case.
-/
theorem claim_C7_setitem_error_conditions (ex : Value → String) (e : Entry)
    (key : String) (v : Value) :
    ((Entry.setitem ex e key v = Except.error (SetError.entryUnicodeError key v)) ↔
      (∃ b, v = Value.bytes b ∧ decodeAscii b = none))
    ∧ ((∃ m, Entry.setitem ex e key v = Except.error (SetError.pluginError m)) ↔
      ((key = "title" ∨ key = "url") ∧ isBasestring v = false))
    ∧ ((∃ e2, Entry.setitem ex e key v = Except.ok e2) ↔
      (¬(∃ b, v = Value.bytes b ∧ decodeAscii b = none) ∧
       ¬((key = "title" ∨ key = "url") ∧ isBasestring v = false))) := by
  have main :
      (∃ b, v = Value.bytes b ∧ decodeAscii b = none ∧
        Entry.setitem ex e key v = Except.error (SetError.entryUnicodeError key v))
      ∨ ((key = "title" ∨ key = "url") ∧ isBasestring v = false ∧
        ∃ m, Entry.setitem ex e key v = Except.error (SetError.pluginError m))
      ∨ (¬(∃ b, v = Value.bytes b ∧ decodeAscii b = none) ∧
         ¬((key = "title" ∨ key = "url") ∧ isBasestring v = false) ∧
         ∃ e2, Entry.setitem ex e key v = Except.ok e2) := by
    have okcase : ∀ s : String, (∃ e2, Entry.setitem ex e key (Value.text s) = Except.ok e2) := by
      intro s
      by_cases hu : key = "url"
      · subst hu
        by_cases hc : containsKey e.data "original_url"
        · exact ⟨_, setitem_url_text_later ex e s hc⟩
        · exact ⟨_, setitem_url_text_first ex e s (by simpa using hc)⟩
      · by_cases ht : key = "title"
        · subst ht; exact ⟨_, setitem_title_text ex e s⟩
        · by_cases hi : key = "imdb_url"
          · subst hi; exact ⟨_, setitem_imdb_text ex e s⟩
          · exact ⟨_, setitem_plain_text ex e key s hu ht hi⟩
    rcases v with s | b | ⟨i, t⟩
    · right; right
      refine ⟨by simp, by simp [isBasestring], okcase s⟩
    · rcases hd : decodeAscii b with _ | s
      · exact Or.inl ⟨b, rfl, hd, setitem_bytes_undecodable ex e key b hd⟩
      · right; right
        refine ⟨?_, by simp [isBasestring], ?_⟩
        · rintro ⟨b2, hb2, hd2⟩
          rw [Value.bytes.injEq] at hb2
          rw [hb2] at hd
          rw [hd] at hd2
          cases hd2
        · rw [setitem_bytes_decodable ex e key b s hd]
          exact okcase s
    · by_cases hu : key = "url"
      · subst hu
        exact Or.inr (Or.inl ⟨Or.inr rfl, rfl, _, setitem_url_other ex e i t⟩)
      · by_cases ht : key = "title"
        · subst ht
          exact Or.inr (Or.inl ⟨Or.inl rfl, rfl, _, setitem_title_other ex e i t⟩)
        · right; right
          refine ⟨by simp, ?_, ?_⟩
          · rintro ⟨hk, -⟩
            rcases hk with hk | hk
            · exact ht hk
            · exact hu hk
          · by_cases hi : key = "imdb_url"
            · subst hi; exact ⟨_, setitem_imdb_other ex e i t⟩
            · exact ⟨_, setitem_plain_other ex e key i t hu ht hi⟩
  refine ⟨⟨?_, ?_⟩, ⟨?_, ?_⟩, ⟨?_, ?_⟩⟩
  · intro h
    rcases main with ⟨b, hb, hd, heq⟩ | ⟨_, _, m, heq⟩ | ⟨_, _, e2, heq⟩
    · exact ⟨b, hb, hd⟩
    · rw [heq] at h; simp at h
    · rw [heq] at h; simp at h
  · rintro ⟨b, rfl, hd⟩
    exact setitem_bytes_undecodable ex e key b hd
  · rintro ⟨m, h⟩
    rcases main with ⟨b, hb, hd, heq⟩ | ⟨hk, hb, _⟩ | ⟨_, _, e2, heq⟩
    · rw [heq] at h; simp at h
    · exact ⟨hk, hb⟩
    · rw [heq] at h; simp at h
  · rintro ⟨hk, hb⟩
    rcases main with ⟨b, hbb, hd, heq⟩ | ⟨_, _, m, heq⟩ | ⟨_, hnot, _⟩
    · subst hbb; simp [isBasestring] at hb
    · exact ⟨m, heq⟩
    · exact absurd ⟨hk, hb⟩ hnot
  · rintro ⟨e2, h⟩
    rcases main with ⟨b, hb, hd, heq⟩ | ⟨_, _, m, heq⟩ | ⟨hn1, hn2, _⟩
    · rw [heq] at h; simp at h
    · rw [heq] at h; simp at h
    · exact ⟨hn1, hn2⟩
  · rintro ⟨hn1, hn2⟩
    rcases main with ⟨b, hb, hd, heq⟩ | ⟨hk, hb, _⟩ | ⟨_, _, e2, heq⟩
    · exact absurd ⟨b, hb, hd⟩ hn1
    · exact absurd ⟨hk, hb⟩ hn2
    · exact ⟨e2, heq⟩


theorem markPlugin_aborted (phase : String) (p : PluginSpec) (s : FeedState) :
    (markPlugin phase p s).aborted = s.aborted := rfl

theorem markPlugin_raised (phase : String) (p : PluginSpec) (s : FeedState) :
    (markPlugin phase p s).raised = s.raised := rfl

theorem markPlugin_phaseRuns (phase : String) (p : PluginSpec) (s : FeedState) :
    (markPlugin phase p s).phaseRuns = s.phaseRuns := rfl

theorem markPlugin_disabledPhases (phase : String) (p : PluginSpec) (s : FeedState) :
    (markPlugin phase p s).disabledPhases = s.disabledPhases := rfl

theorem markPlugin_phasesStarted (phase : String) (p : PluginSpec) (s : FeedState) :
    (markPlugin phase p s).phasesStarted = s.phasesStarted := rfl

theorem markPlugin_unitTest (phase : String) (p : PluginSpec) (s : FeedState) :
    (markPlugin phase p s).unitTest = s.unitTest := rfl

theorem markPlugin_committed (phase : String) (p : PluginSpec) (s : FeedState) :
    (markPlugin phase p s).committed = s.committed := rfl

theorem markPlugin_closed (phase : String) (p : PluginSpec) (s : FeedState) :
    (markPlugin phase p s).closed = s.closed := rfl

theorem markPlugin_sessionOpen (phase : String) (p : PluginSpec) (s : FeedState) :
    (markPlugin phase p s).sessionOpen = s.sessionOpen := rfl

theorem markPlugin_rerun (phase : String) (p : PluginSpec) (s : FeedState) :
    (markPlugin phase p s).rerun = s.rerun := rfl

theorem markPlugin_entries (phase : String) (p : PluginSpec) (s : FeedState) :
    (markPlugin phase p s).entries = s.entries := rfl

theorem markPlugin_accepted (phase : String) (p : PluginSpec) (s : FeedState) :
    (markPlugin phase p s).accepted = s.accepted := rfl

theorem markPlugin_rejected (phase : String) (p : PluginSpec) (s : FeedState) :
    (markPlugin phase p s).rejected = s.rejected := rfl

theorem markPlugin_failed (phase : String) (p : PluginSpec) (s : FeedState) :
    (markPlugin phase p s).failed = s.failed := rfl

theorem markPlugin_pluginRuns (phase : String) (p : PluginSpec) (s : FeedState) :
    (markPlugin phase p s).pluginRuns = s.pluginRuns ++ [(phase, p.name)] := rfl

theorem abortMark_aborted (s : FeedState) : (abortMark s).aborted = true := rfl

theorem abortMark_raised (s : FeedState) : (abortMark s).raised = s.raised := rfl

theorem abortMark_phaseRuns (s : FeedState) :
    (abortMark s).phaseRuns = s.phaseRuns ++ ["abort"] := rfl

theorem abortMark_disabledPhases (s : FeedState) :
    (abortMark s).disabledPhases = s.disabledPhases := rfl

theorem abortMark_phasesStarted (s : FeedState) :
    (abortMark s).phasesStarted = s.phasesStarted := rfl

theorem abortMark_unitTest (s : FeedState) : (abortMark s).unitTest = s.unitTest := rfl

theorem abortMark_committed (s : FeedState) : (abortMark s).committed = s.committed := rfl

theorem abortMark_closed (s : FeedState) : (abortMark s).closed = s.closed := rfl

theorem abortMark_sessionOpen (s : FeedState) :
    (abortMark s).sessionOpen = s.sessionOpen := rfl

theorem abortMark_rerun (s : FeedState) : (abortMark s).rerun = s.rerun := rfl

theorem abortMark_pluginRuns (s : FeedState) :
    (abortMark s).pluginRuns = s.pluginRuns := rfl

theorem purgeF_aborted (s : FeedState) : (purgeF s).aborted = s.aborted := rfl

theorem purgeF_raised (s : FeedState) : (purgeF s).raised = s.raised := rfl

theorem purgeF_phaseRuns (s : FeedState) : (purgeF s).phaseRuns = s.phaseRuns := rfl

theorem purgeF_disabledPhases (s : FeedState) :
    (purgeF s).disabledPhases = s.disabledPhases := rfl

theorem purgeF_phasesStarted (s : FeedState) :
    (purgeF s).phasesStarted = s.phasesStarted := rfl

theorem purgeF_unitTest (s : FeedState) : (purgeF s).unitTest = s.unitTest := rfl

theorem purgeF_committed (s : FeedState) : (purgeF s).committed = s.committed := rfl

theorem purgeF_closed (s : FeedState) : (purgeF s).closed = s.closed := rfl

theorem purgeF_sessionOpen (s : FeedState) : (purgeF s).sessionOpen = s.sessionOpen := rfl

theorem purgeF_rerun (s : FeedState) : (purgeF s).rerun = s.rerun := rfl

theorem purgeF_pluginRuns (s : FeedState) : (purgeF s).pluginRuns = s.pluginRuns := rfl

attribute [simp] markPlugin_aborted markPlugin_raised markPlugin_phaseRuns
  markPlugin_disabledPhases markPlugin_phasesStarted markPlugin_unitTest
  markPlugin_committed markPlugin_closed markPlugin_sessionOpen markPlugin_rerun
  markPlugin_entries markPlugin_accepted markPlugin_rejected markPlugin_failed
  markPlugin_pluginRuns abortMark_aborted abortMark_raised abortMark_phaseRuns
  abortMark_disabledPhases abortMark_phasesStarted abortMark_unitTest
  abortMark_committed abortMark_closed abortMark_sessionOpen abortMark_rerun
  abortMark_pluginRuns purgeF_aborted purgeF_raised purgeF_phaseRuns
  purgeF_disabledPhases purgeF_phasesStarted purgeF_unitTest purgeF_committed
  purgeF_closed purgeF_sessionOpen purgeF_rerun purgeF_pluginRuns

theorem actStep_disabledPhases (ab : FeedState → FeedState) (phase : String)
    (p : PluginSpec) (s1 : FeedState)
    (h : ∀ x, (ab x).disabledPhases = x.disabledPhases) :
    (actStep ab phase p s1).disabledPhases = s1.disabledPhases := by
  cases hp : p.act <;> simp only [actStep, hp] <;> (repeat' split) <;> simp [h]

theorem actStep_phasesStarted (ab : FeedState → FeedState) (phase : String)
    (p : PluginSpec) (s1 : FeedState)
    (h : ∀ x, (ab x).phasesStarted = x.phasesStarted) :
    (actStep ab phase p s1).phasesStarted = s1.phasesStarted := by
  cases hp : p.act <;> simp only [actStep, hp] <;> (repeat' split) <;> simp [h]

theorem actStep_unitTest (ab : FeedState → FeedState) (phase : String)
    (p : PluginSpec) (s1 : FeedState)
    (h : ∀ x, (ab x).unitTest = x.unitTest) :
    (actStep ab phase p s1).unitTest = s1.unitTest := by
  cases hp : p.act <;> simp only [actStep, hp] <;> (repeat' split) <;> simp [h]

theorem actStep_committed (ab : FeedState → FeedState) (phase : String)
    (p : PluginSpec) (s1 : FeedState)
    (h : ∀ x, (ab x).committed = x.committed) :
    (actStep ab phase p s1).committed = s1.committed := by
  cases hp : p.act <;> simp only [actStep, hp] <;> (repeat' split) <;> simp [h]

theorem actStep_closed (ab : FeedState → FeedState) (phase : String)
    (p : PluginSpec) (s1 : FeedState)
    (h : ∀ x, (ab x).closed = x.closed) :
    (actStep ab phase p s1).closed = s1.closed := by
  cases hp : p.act <;> simp only [actStep, hp] <;> (repeat' split) <;> simp [h]

theorem actStep_sessionOpen (ab : FeedState → FeedState) (phase : String)
    (p : PluginSpec) (s1 : FeedState)
    (h : ∀ x, (ab x).sessionOpen = x.sessionOpen) :
    (actStep ab phase p s1).sessionOpen = s1.sessionOpen := by
  cases hp : p.act <;> simp only [actStep, hp] <;> (repeat' split) <;> simp [h]

theorem actStep_aborted_mono (ab : FeedState → FeedState) (phase : String)
    (p : PluginSpec) (s1 : FeedState)
    (h : ∀ x, x.aborted = true → (ab x).aborted = true)
    (hs : s1.aborted = true) :
    (actStep ab phase p s1).aborted = true := by
  cases hp : p.act <;> simp only [actStep, hp] <;> (repeat' split) <;> simp_all [h]

theorem actStep_raised_mono (ab : FeedState → FeedState) (phase : String)
    (p : PluginSpec) (s1 : FeedState)
    (h : ∀ x, x.raised = true → (ab x).raised = true)
    (hs : s1.raised = true) :
    (actStep ab phase p s1).raised = true := by
  cases hp : p.act <;> simp only [actStep, hp] <;> (repeat' split) <;>
    simp_all [fun x => h x]

theorem actStep_raised_imp_aborted (ab : FeedState → FeedState) (phase : String)
    (p : PluginSpec) (s1 : FeedState)
    (hmono : ∀ x, x.aborted = true → (ab x).aborted = true)
    (hria : ∀ x, x.raised = false → (ab x).raised = true → (ab x).aborted = true)
    (hs : s1.raised = false) :
    (actStep ab phase p s1).raised = true → (actStep ab phase p s1).aborted = true := by
  cases hp : p.act <;> simp only [actStep, hp] <;> (repeat' split) <;>
    intro hr <;> simp_all [fun x => hmono x, fun x => hria x]

theorem actStep_of_aborted (ab : FeedState → FeedState) (phase : String)
    (p : PluginSpec) (s1 : FeedState) (hs : s1.aborted = true) :
    (actStep ab phase p s1).phaseRuns = s1.phaseRuns
    ∧ (actStep ab phase p s1).aborted = true
    ∧ (actStep ab phase p s1).pluginRuns = s1.pluginRuns
    ∧ (actStep ab phase p s1).disabledPhases = s1.disabledPhases := by
  cases hp : p.act <;> simp only [actStep, hp] <;> (repeat' split) <;> simp_all

theorem actStep_raised_of_aborted (ab : FeedState → FeedState) (phase : String)
    (p : PluginSpec) (s1 : FeedState) (hs : s1.aborted = true)
    (hu : s1.unitTest = false) :
    (actStep ab phase p s1).raised = s1.raised := by
  cases hp : p.act <;> simp only [actStep, hp] <;> (repeat' split) <;> simp_all

theorem actStep_phaseRuns_extend (ab : FeedState → FeedState) (phase : String)
    (p : PluginSpec) (s1 : FeedState)
    (h : ∀ x, ∃ t, (ab x).phaseRuns = x.phaseRuns ++ t) :
    ∃ t, (actStep ab phase p s1).phaseRuns = s1.phaseRuns ++ t := by
  cases hp : p.act <;> simp only [actStep, hp]
  case nop => exact ⟨[], by simp⟩
  case returnEntries es =>
    refine ⟨[], ?_⟩
    split <;> simp
  case callRerun => exact ⟨[], by simp⟩
  case callAbort =>
    split
    · exact ⟨[], by simp⟩
    · obtain ⟨t, ht⟩ := h (abortMark s1)
      exact ⟨"abort" :: t, by rw [ht]; simp⟩
  case raiseBug =>
    have hsA : ∃ t, (if s1.aborted = true then s1 else ab (abortMark s1)).phaseRuns =
        s1.phaseRuns ++ t := by
      split
      · exact ⟨[], by simp⟩
      · obtain ⟨t, ht⟩ := h (abortMark s1)
        exact ⟨"abort" :: t, by rw [ht]; simp⟩
    obtain ⟨t, ht⟩ := hsA
    refine ⟨t, ?_⟩
    split <;> simpa using ht

theorem actStep_abort_count (ab : FeedState → FeedState) (phase : String)
    (p : PluginSpec) (s1 : FeedState)
    (hA1 : ∀ x, x.aborted = true → (ab x).phaseRuns = x.phaseRuns)
    (hmono : ∀ x, x.aborted = true → (ab x).aborted = true)
    (hs : s1.aborted = false) :
    List.count "abort" (actStep ab phase p s1).phaseRuns =
      List.count "abort" s1.phaseRuns +
        (if (actStep ab phase p s1).aborted = true then 1 else 0) := by
  cases hp : p.act <;> simp only [actStep, hp]
  case nop => simp [hs]
  case returnEntries es => split <;> simp [hs]
  case callRerun => simp [hs]
  case callAbort =>
    rw [if_neg (by simp [hs])]
    rw [hA1 (abortMark s1) (by simp), hmono (abortMark s1) (by simp)]
    simp [List.count_append]
  case raiseBug =>
    have h1 : (if s1.aborted = true then s1 else ab (abortMark s1)).phaseRuns =
        s1.phaseRuns ++ ["abort"] := by
      rw [if_neg (by simp [hs])]
      rw [hA1 (abortMark s1) (by simp)]
      simp
    have h2 : (if s1.aborted = true then s1 else ab (abortMark s1)).aborted = true := by
      rw [if_neg (by simp [hs])]
      exact hmono (abortMark s1) (by simp)
    split <;> simp [h1, h2, List.count_append]

theorem rpl_disabledPhases (reg : Registry) :
    ∀ (fuel : Nat) (phase : String) (ps : List PluginSpec) (s : FeedState),
      (runPhaseList reg fuel phase ps s).disabledPhases = s.disabledPhases := by
  intro fuel
  induction fuel with
  | zero => intro phase ps s; simp [runPhaseList]
  | succ n ih =>
    intro phase ps s
    cases ps with
    | nil => simp [runPhaseList]
    | cons p rest =>
      simp only [runPhaseList]
      split
      · rfl
      · (repeat' split) <;>
          simp [actStep_disabledPhases _ _ _ _ (fun x => ih "abort" (reg "abort") x), ih]

theorem rpl_phasesStarted (reg : Registry) :
    ∀ (fuel : Nat) (phase : String) (ps : List PluginSpec) (s : FeedState),
      (runPhaseList reg fuel phase ps s).phasesStarted = s.phasesStarted := by
  intro fuel
  induction fuel with
  | zero => intro phase ps s; simp [runPhaseList]
  | succ n ih =>
    intro phase ps s
    cases ps with
    | nil => simp [runPhaseList]
    | cons p rest =>
      simp only [runPhaseList]
      split
      · rfl
      · (repeat' split) <;>
          simp [actStep_phasesStarted _ _ _ _ (fun x => ih "abort" (reg "abort") x), ih]

theorem rpl_unitTest (reg : Registry) :
    ∀ (fuel : Nat) (phase : String) (ps : List PluginSpec) (s : FeedState),
      (runPhaseList reg fuel phase ps s).unitTest = s.unitTest := by
  intro fuel
  induction fuel with
  | zero => intro phase ps s; simp [runPhaseList]
  | succ n ih =>
    intro phase ps s
    cases ps with
    | nil => simp [runPhaseList]
    | cons p rest =>
      simp only [runPhaseList]
      split
      · rfl
      · (repeat' split) <;>
          simp [actStep_unitTest _ _ _ _ (fun x => ih "abort" (reg "abort") x), ih]

theorem rpl_committed (reg : Registry) :
    ∀ (fuel : Nat) (phase : String) (ps : List PluginSpec) (s : FeedState),
      (runPhaseList reg fuel phase ps s).committed = s.committed := by
  intro fuel
  induction fuel with
  | zero => intro phase ps s; simp [runPhaseList]
  | succ n ih =>
    intro phase ps s
    cases ps with
    | nil => simp [runPhaseList]
    | cons p rest =>
      simp only [runPhaseList]
      split
      · rfl
      · (repeat' split) <;>
          simp [actStep_committed _ _ _ _ (fun x => ih "abort" (reg "abort") x), ih]

theorem rpl_closed (reg : Registry) :
    ∀ (fuel : Nat) (phase : String) (ps : List PluginSpec) (s : FeedState),
      (runPhaseList reg fuel phase ps s).closed = s.closed := by
  intro fuel
  induction fuel with
  | zero => intro phase ps s; simp [runPhaseList]
  | succ n ih =>
    intro phase ps s
    cases ps with
    | nil => simp [runPhaseList]
    | cons p rest =>
      simp only [runPhaseList]
      split
      · rfl
      · (repeat' split) <;>
          simp [actStep_closed _ _ _ _ (fun x => ih "abort" (reg "abort") x), ih]

theorem rpl_sessionOpen (reg : Registry) :
    ∀ (fuel : Nat) (phase : String) (ps : List PluginSpec) (s : FeedState),
      (runPhaseList reg fuel phase ps s).sessionOpen = s.sessionOpen := by
  intro fuel
  induction fuel with
  | zero => intro phase ps s; simp [runPhaseList]
  | succ n ih =>
    intro phase ps s
    cases ps with
    | nil => simp [runPhaseList]
    | cons p rest =>
      simp only [runPhaseList]
      split
      · rfl
      · (repeat' split) <;>
          simp [actStep_sessionOpen _ _ _ _ (fun x => ih "abort" (reg "abort") x), ih]

theorem rpl_aborted_mono (reg : Registry) :
    ∀ (fuel : Nat) (phase : String) (ps : List PluginSpec) (s : FeedState),
      s.aborted = true → (runPhaseList reg fuel phase ps s).aborted = true := by
  intro fuel
  induction fuel with
  | zero => intro phase ps s h; simpa [runPhaseList] using h
  | succ n ih =>
    intro phase ps s h
    cases ps with
    | nil => simpa [runPhaseList] using h
    | cons p rest =>
      have hstep : (actStep (runPhaseList reg n "abort" (reg "abort")) phase p
          (markPlugin phase p s)).aborted = true :=
        actStep_aborted_mono _ _ _ _ (fun x hx => ih "abort" (reg "abort") x hx)
          (by simpa using h)
      simp only [runPhaseList]
      split
      · exact h
      · (repeat' split) <;> simp_all [ih]

theorem rpl_raised_mono (reg : Registry) :
    ∀ (fuel : Nat) (phase : String) (ps : List PluginSpec) (s : FeedState),
      s.raised = true → (runPhaseList reg fuel phase ps s).raised = true := by
  intro fuel
  induction fuel with
  | zero => intro phase ps s h; simpa [runPhaseList] using h
  | succ n ih =>
    intro phase ps s h
    cases ps with
    | nil => simpa [runPhaseList] using h
    | cons p rest =>
      have hstep : (actStep (runPhaseList reg n "abort" (reg "abort")) phase p
          (markPlugin phase p s)).raised = true :=
        actStep_raised_mono _ _ _ _ (fun x hx => ih "abort" (reg "abort") x hx)
          (by simpa using h)
      simp only [runPhaseList]
      split
      · exact h
      · (repeat' split) <;> simp_all [ih]

theorem rpl_raised_imp_aborted (reg : Registry) :
    ∀ (fuel : Nat) (phase : String) (ps : List PluginSpec) (s : FeedState),
      s.raised = false →
      (runPhaseList reg fuel phase ps s).raised = true →
      (runPhaseList reg fuel phase ps s).aborted = true := by
  intro fuel
  induction fuel with
  | zero =>
    intro phase ps s h hr
    rw [runPhaseList] at hr
    rw [h] at hr
    cases hr
  | succ n ih =>
    intro phase ps s h hr
    cases ps with
    | nil =>
      rw [runPhaseList] at hr
      rw [h] at hr
      cases hr
    | cons p rest =>
      have hstep := actStep_raised_imp_aborted (runPhaseList reg n "abort" (reg "abort"))
        phase p (markPlugin phase p s)
        (fun x hx => rpl_aborted_mono reg n "abort" (reg "abort") x hx)
        (fun x hx hrx => ih "abort" (reg "abort") x hx hrx)
        (by simpa using h)
      rw [runPhaseList] at hr ⊢
      by_cases hd : s.disabledPhases.contains phase = true
      · rw [if_pos hd] at hr ⊢
        rw [h] at hr
        cases hr
      · rw [if_neg hd] at hr ⊢
        by_cases hraised : (actStep (runPhaseList reg n "abort" (reg "abort")) phase p
            (markPlugin phase p s)).raised = true
        · rw [if_pos hraised] at hr ⊢
          exact hstep hraised
        · rw [if_neg hraised] at hr ⊢
          have hs3r : (if entry_events.contains phase
              then actStep (runPhaseList reg n "abort" (reg "abort")) phase p
                (markPlugin phase p s)
              else purgeF (actStep (runPhaseList reg n "abort" (reg "abort")) phase p
                (markPlugin phase p s))).raised = false := by
            split <;> simpa using hraised
          by_cases hcond : ((if entry_events.contains phase
              then actStep (runPhaseList reg n "abort" (reg "abort")) phase p
                (markPlugin phase p s)
              else purgeF (actStep (runPhaseList reg n "abort" (reg "abort")) phase p
                (markPlugin phase p s))).aborted && !(phase == "abort")) = true
          · rw [if_pos hcond] at hr
            rw [hs3r] at hr
            cases hr
          · rw [if_neg hcond] at hr ⊢
            exact ih phase rest _ hs3r hr

theorem rpl_phaseRuns_of_aborted (reg : Registry) :
    ∀ (fuel : Nat) (phase : String) (ps : List PluginSpec) (s : FeedState),
      s.aborted = true →
      (runPhaseList reg fuel phase ps s).phaseRuns = s.phaseRuns := by
  intro fuel
  induction fuel with
  | zero => intro phase ps s _; rw [runPhaseList]
  | succ n ih =>
    intro phase ps s h
    cases ps with
    | nil => rw [runPhaseList]
    | cons p rest =>
      obtain ⟨hpr, hab, -, -⟩ := actStep_of_aborted
        (runPhaseList reg n "abort" (reg "abort")) phase p (markPlugin phase p s)
        (by simpa using h)
      rw [runPhaseList]
      by_cases hd : s.disabledPhases.contains phase = true
      · rw [if_pos hd]
      · rw [if_neg hd]
        by_cases hraised : (actStep (runPhaseList reg n "abort" (reg "abort")) phase p
            (markPlugin phase p s)).raised = true
        · rw [if_pos hraised]
          rw [hpr]
          simp
        · rw [if_neg hraised]
          have hs3p : (if entry_events.contains phase
              then actStep (runPhaseList reg n "abort" (reg "abort")) phase p
                (markPlugin phase p s)
              else purgeF (actStep (runPhaseList reg n "abort" (reg "abort")) phase p
                (markPlugin phase p s))).phaseRuns = s.phaseRuns := by
            split <;> simp [hpr]
          have hs3a : (if entry_events.contains phase
              then actStep (runPhaseList reg n "abort" (reg "abort")) phase p
                (markPlugin phase p s)
              else purgeF (actStep (runPhaseList reg n "abort" (reg "abort")) phase p
                (markPlugin phase p s))).aborted = true := by
            split <;> simp [hab]
          by_cases hcond : ((if entry_events.contains phase
              then actStep (runPhaseList reg n "abort" (reg "abort")) phase p
                (markPlugin phase p s)
              else purgeF (actStep (runPhaseList reg n "abort" (reg "abort")) phase p
                (markPlugin phase p s))).aborted && !(phase == "abort")) = true
          · rw [if_pos hcond]
            exact hs3p
          · rw [if_neg hcond]
            rw [ih phase rest _ hs3a]
            exact hs3p

theorem rpl_phaseRuns_extend (reg : Registry) :
    ∀ (fuel : Nat) (phase : String) (ps : List PluginSpec) (s : FeedState),
      ∃ t, (runPhaseList reg fuel phase ps s).phaseRuns = s.phaseRuns ++ t := by
  intro fuel
  induction fuel with
  | zero => intro phase ps s; exact ⟨[], by rw [runPhaseList]; simp⟩
  | succ n ih =>
    intro phase ps s
    cases ps with
    | nil => exact ⟨[], by rw [runPhaseList]; simp⟩
    | cons p rest =>
      obtain ⟨t0, h0⟩ := actStep_phaseRuns_extend
        (runPhaseList reg n "abort" (reg "abort")) phase p (markPlugin phase p s)
        (fun x => ih "abort" (reg "abort") x)
      rw [runPhaseList]
      by_cases hd : s.disabledPhases.contains phase = true
      · rw [if_pos hd]
        exact ⟨[], by simp⟩
      · rw [if_neg hd]
        by_cases hraised : (actStep (runPhaseList reg n "abort" (reg "abort")) phase p
            (markPlugin phase p s)).raised = true
        · rw [if_pos hraised]
          exact ⟨t0, by simpa using h0⟩
        · rw [if_neg hraised]
          have hs3p : (if entry_events.contains phase
              then actStep (runPhaseList reg n "abort" (reg "abort")) phase p
                (markPlugin phase p s)
              else purgeF (actStep (runPhaseList reg n "abort" (reg "abort")) phase p
                (markPlugin phase p s))).phaseRuns = s.phaseRuns ++ t0 := by
            split <;> simpa using h0
          by_cases hcond : ((if entry_events.contains phase
              then actStep (runPhaseList reg n "abort" (reg "abort")) phase p
                (markPlugin phase p s)
              else purgeF (actStep (runPhaseList reg n "abort" (reg "abort")) phase p
                (markPlugin phase p s))).aborted && !(phase == "abort")) = true
          · rw [if_pos hcond]
            exact ⟨t0, hs3p⟩
          · rw [if_neg hcond]
            obtain ⟨t1, h1⟩ := ih phase rest
              (if entry_events.contains phase
               then actStep (runPhaseList reg n "abort" (reg "abort")) phase p
                 (markPlugin phase p s)
               else purgeF (actStep (runPhaseList reg n "abort" (reg "abort")) phase p
                 (markPlugin phase p s)))
            exact ⟨t0 ++ t1, by rw [h1, hs3p, List.append_assoc]⟩

theorem rpl_abort_count (reg : Registry) :
    ∀ (fuel : Nat) (phase : String) (ps : List PluginSpec) (s : FeedState),
      s.aborted = false →
      List.count "abort" (runPhaseList reg fuel phase ps s).phaseRuns =
        List.count "abort" s.phaseRuns +
          (if (runPhaseList reg fuel phase ps s).aborted = true then 1 else 0) := by
  intro fuel
  induction fuel with
  | zero => intro phase ps s h; rw [runPhaseList]; simp [h]
  | succ n ih =>
    intro phase ps s h
    cases ps with
    | nil => rw [runPhaseList]; simp [h]
    | cons p rest =>
      have hc2 := actStep_abort_count (runPhaseList reg n "abort" (reg "abort"))
        phase p (markPlugin phase p s)
        (fun x hx => rpl_phaseRuns_of_aborted reg n "abort" (reg "abort") x hx)
        (fun x hx => rpl_aborted_mono reg n "abort" (reg "abort") x hx)
        (by simpa using h)
      rw [markPlugin_phaseRuns] at hc2
      rw [runPhaseList]
      by_cases hd : s.disabledPhases.contains phase = true
      · rw [if_pos hd]
        simp [h]
      · rw [if_neg hd]
        by_cases hraised : (actStep (runPhaseList reg n "abort" (reg "abort")) phase p
            (markPlugin phase p s)).raised = true
        · rw [if_pos hraised]
          exact hc2
        · rw [if_neg hraised]
          have hs3p : (if entry_events.contains phase
              then actStep (runPhaseList reg n "abort" (reg "abort")) phase p
                (markPlugin phase p s)
              else purgeF (actStep (runPhaseList reg n "abort" (reg "abort")) phase p
                (markPlugin phase p s))).phaseRuns =
              (actStep (runPhaseList reg n "abort" (reg "abort")) phase p
                (markPlugin phase p s)).phaseRuns := by
            split <;> simp
          have hs3a : (if entry_events.contains phase
              then actStep (runPhaseList reg n "abort" (reg "abort")) phase p
                (markPlugin phase p s)
              else purgeF (actStep (runPhaseList reg n "abort" (reg "abort")) phase p
                (markPlugin phase p s))).aborted =
              (actStep (runPhaseList reg n "abort" (reg "abort")) phase p
                (markPlugin phase p s)).aborted := by
            split <;> simp
          by_cases hcond : ((if entry_events.contains phase
              then actStep (runPhaseList reg n "abort" (reg "abort")) phase p
                (markPlugin phase p s)
              else purgeF (actStep (runPhaseList reg n "abort" (reg "abort")) phase p
                (markPlugin phase p s))).aborted && !(phase == "abort")) = true
          · rw [if_pos hcond]
            rw [hs3p, hs3a]
            exact hc2
          · rw [if_neg hcond]
            by_cases hab2 : (actStep (runPhaseList reg n "abort" (reg "abort")) phase p
                (markPlugin phase p s)).aborted = true
            · have hs3a2 : (if entry_events.contains phase
                  then actStep (runPhaseList reg n "abort" (reg "abort")) phase p
                    (markPlugin phase p s)
                  else purgeF (actStep (runPhaseList reg n "abort" (reg "abort")) phase p
                    (markPlugin phase p s))).aborted = true := by rw [hs3a]; exact hab2
              rw [rpl_phaseRuns_of_aborted reg n phase rest _ hs3a2, hs3p]
              rw [rpl_aborted_mono reg n phase rest _ hs3a2]
              rw [hab2] at hc2
              simpa using hc2
            · have hs3a2 : (if entry_events.contains phase
                  then actStep (runPhaseList reg n "abort" (reg "abort")) phase p
                    (markPlugin phase p s)
                  else purgeF (actStep (runPhaseList reg n "abort" (reg "abort")) phase p
                    (markPlugin phase p s))).aborted = false := by
                rw [hs3a]
                simpa using hab2
              rw [ih phase rest _ hs3a2]
              rw [hs3p]
              rw [hc2]
              simp [hab2]

/--
Claim C5: calling `Feed.reject` on an entry whose `immortal` field is
set never adds it to `rejected`, whatever the reason: the rejection is
suppressed, only a log message and a trace entry are produced, the
decision lists are unchanged, and no reject lifecycle phase runs.
-/
theorem claim_C5_reject_immortal (reg : Registry) (fuel : Nat) (s : FeedState)
    (entry : Entry) (reason : Option String) (t : Value)
    (him : truthy (lookupKV entry.data "immortal") = true)
    (ht : lookupKV entry.data "title" = some t) :
    Feed.reject reg fuel s entry reason =
      Except.ok
        ({ s with logs := s.logs ++
            ["Tried to reject immortal " ++ strV t ++ " " ++ reasonStr reason] },
         { entry with trace := entry.trace ++
            [(s.currentPlugin, "Tried to reject immortal " ++ reasonStr reason)] })
    ∧ (∀ sl e1, Feed.reject reg fuel s entry reason = Except.ok (sl, e1) →
        sl.rejected = s.rejected ∧ sl.accepted = s.accepted ∧
        sl.entries = s.entries ∧ sl.failed = s.failed ∧
        sl.phaseRuns = s.phaseRuns ∧ e1.data = entry.data) := by
  have h1 : Feed.reject reg fuel s entry reason =
      Except.ok
        ({ s with logs := s.logs ++
            ["Tried to reject immortal " ++ strV t ++ " " ++ reasonStr reason] },
         { entry with trace := entry.trace ++
            [(s.currentPlugin, "Tried to reject immortal " ++ reasonStr reason)] }) := by
    simp [Feed.reject, him, ht]
  refine ⟨h1, ?_⟩
  intro sl e1 h2
  rw [h1] at h2
  simp only [Except.ok.injEq, Prod.mk.injEq] at h2
  obtain ⟨hsl, he1⟩ := h2
  subst hsl
  subst he1
  simp

/--
Witness for claim C5 at a concrete input: rejecting an immortal entry
leaves the rejected list empty.
-/
theorem claim_C5_reject_immortal_witness :
    Feed.reject (fun _ => []) 5 (initialState false)
        ⟨[("title", Value.text "A"), ("immortal", Value.other 1 true)], []⟩
        (some "because") =
      Except.ok
        ({ initialState false with logs := (initialState false).logs ++
            ["Tried to reject immortal " ++ strV (Value.text "A") ++ " " ++
              reasonStr (some "because")] },
         { (⟨[("title", Value.text "A"), ("immortal", Value.other 1 true)], []⟩ : Entry) with
            trace := [(none, "Tried to reject immortal " ++ reasonStr (some "because"))] }) :=
  (claim_C5_reject_immortal (fun _ => []) 5 (initialState false)
    ⟨[("title", Value.text "A"), ("immortal", Value.other 1 true)], []⟩
    (some "because") (Value.text "A") rfl rfl).1

/--
Claim C8: `Feed.accept` never adds an entry already in `rejected` to
`accepted` (only a debug log is produced); it appends the entry to
`accepted` and then runs the accept lifecycle phase exactly when the
entry is in neither `accepted` nor `rejected`.
-/
theorem claim_C8_accept (reg : Registry) (fuel : Nat) (s : FeedState)
    (entry : Entry) :
    (inList s.rejected entry = true →
      (Feed.accept reg fuel s entry).accepted = s.accepted ∧
      (Feed.accept reg fuel s entry).rejected = s.rejected ∧
      (Feed.accept reg fuel s entry).phaseRuns = s.phaseRuns)
    ∧ (inList s.accepted entry = false → inList s.rejected entry = false →
      Feed.accept reg fuel s entry =
        runPhase reg fuel "accept" { s with accepted := s.accepted ++ [entry] } ∧
      ∃ t, (Feed.accept reg fuel s entry).phaseRuns = s.phaseRuns ++ "accept" :: t)
    ∧ (inList s.accepted entry = true → inList s.rejected entry = false →
      Feed.accept reg fuel s entry = s) := by
  refine ⟨?_, ?_, ?_⟩
  · intro hrej
    simp [Feed.accept, hrej]
  · intro hacc hrej
    have heq : Feed.accept reg fuel s entry =
        runPhase reg fuel "accept" { s with accepted := s.accepted ++ [entry] } := by
      simp [Feed.accept, hacc, hrej]
    refine ⟨heq, ?_⟩
    rw [heq]
    obtain ⟨t, ht⟩ := rpl_phaseRuns_extend reg fuel "accept" (reg "accept")
      { ({ s with accepted := s.accepted ++ [entry] } : FeedState) with
        phaseRuns := ({ s with accepted := s.accepted ++ [entry] } : FeedState).phaseRuns ++ ["accept"] }
    refine ⟨t, ?_⟩
    rw [runPhase, ht]
    simp
  · intro hacc hrej
    simp [Feed.accept, hacc, hrej]

/--
Witness for claim C8 at concrete inputs: accepting an already rejected
entry changes nothing, and accepting a fresh entry appends it and runs
the accept phase.
-/
theorem claim_C8_accept_witness :
    ((Feed.accept (fun _ => []) 5
        { initialState false with rejected := [⟨[("title", Value.text "A")], []⟩] }
        ⟨[("title", Value.text "A")], []⟩).accepted =
      ({ initialState false with rejected := [⟨[("title", Value.text "A")], []⟩] } : FeedState).accepted)
    ∧ (Feed.accept (fun _ => []) 5 (initialState false) ⟨[("title", Value.text "A")], []⟩ =
        runPhase (fun _ => []) 5 "accept"
          { initialState false with accepted := (initialState false).accepted ++ [⟨[("title", Value.text "A")], []⟩] }) :=
  ⟨((claim_C8_accept (fun _ => []) 5
      { initialState false with rejected := [⟨[("title", Value.text "A")], []⟩] }
      ⟨[("title", Value.text "A")], []⟩).1 (by decide)).1,
   ((claim_C8_accept (fun _ => []) 5 (initialState false)
      ⟨[("title", Value.text "A")], []⟩).2.1 (by decide) (by decide)).1⟩

theorem lookupKV_mem (d : List (String × Value)) (k : String) (v : Value)
    (h : lookupKV d k = some v) : (k, v) ∈ d := by
  induction d with
  | nil => cases h
  | cons kv rest ih =>
    obtain ⟨k0, v0⟩ := kv
    by_cases h0 : k0 = k
    · subst h0
      rw [lookupKV, if_pos rfl] at h
      obtain rfl : v0 = v := by injection h
      exact List.mem_cons_self _ _
    · rw [lookupKV, if_neg h0] at h
      exact List.mem_cons_of_mem _ (ih h)

theorem entryEq_symm (a b : Entry) : entryEq a b = entryEq b a := by
  simp [entryEq, dictEq, Bool.and_comm]

theorem entryEq_trans (a b c : Entry) (h1 : entryEq a b = true)
    (h2 : entryEq b c = true) : entryEq a c = true := by
  simp only [entryEq, dictEq, Bool.and_eq_true, List.all_eq_true, beq_iff_eq] at h1 h2 ⊢
  obtain ⟨h1a, h1b⟩ := h1
  obtain ⟨h2a, h2b⟩ := h2
  constructor
  · intro kv hkv
    exact h2a (kv.1, kv.2) (lookupKV_mem _ _ _ (h1a kv hkv))
  · intro kv hkv
    exact h1b (kv.1, kv.2) (lookupKV_mem _ _ _ (h2b kv hkv))

theorem countP_le_one_of_pairwise (l : List Entry) (x : Entry)
    (hp : List.Pairwise (fun a b => entryEq a b = false) l) :
    l.countP (fun e => entryEq e x) ≤ 1 := by
  induction l with
  | nil => simp
  | cons a rest ih =>
    obtain ⟨ha, hrest⟩ := List.pairwise_cons.mp hp
    by_cases hax : entryEq a x = true
    · have hzero : rest.countP (fun e => entryEq e x) = 0 := by
        rw [List.countP_eq_zero]
        intro b hb
        simp only [Bool.not_eq_true]
        by_contra hbx
        have hbx2 : entryEq b x = true := by simpa using hbx
        have hxb : entryEq x b = true := by rw [entryEq_symm]; exact hbx2
        have hab : entryEq a b = true := entryEq_trans a x b hax hxb
        rw [ha b hb] at hab
        cases hab
      simp [List.countP_cons, hax, hzero]
    · have hax2 : entryEq a x = false := by simpa using hax
      simp [List.countP_cons, hax2]
      exact ih hrest

theorem removeFirst_sublist (l : List Entry) (x : Entry) :
    (removeFirst l x).Sublist l := by
  induction l with
  | nil => simp [removeFirst]
  | cons a rest ih =>
    rw [removeFirst]
    split
    · exact List.sublist_cons_self a rest
    · exact List.Sublist.cons₂ a ih

theorem purgeList_sublist (what : List Entry) :
    ∀ lfrom : List Entry, (purgeList what lfrom).Sublist lfrom := by
  induction what with
  | nil => intro lfrom; simp [purgeList]
  | cons w ws ih =>
    intro lfrom
    show (purgeList ws (if inList lfrom w then removeFirst lfrom w else lfrom)).Sublist lfrom
    refine (ih _).trans ?_
    split
    · exact removeFirst_sublist lfrom w
    · exact List.Sublist.refl lfrom

theorem countP_removeFirst_self (l : List Entry) (x : Entry)
    (h : inList l x = true) :
    l.countP (fun e => entryEq e x) =
      (removeFirst l x).countP (fun e => entryEq e x) + 1 := by
  induction l with
  | nil => cases (by simpa [inList] using h : False)
  | cons a rest ih =>
    rw [removeFirst]
    by_cases hax : entryEq a x = true
    · rw [if_pos hax]
      simp [List.countP_cons, hax]
    · rw [if_neg hax]
      have hrest : inList rest x = true := by
        simp only [inList, List.any_cons, Bool.or_eq_true] at h
        rcases h with h | h
        · exact absurd h hax
        · exact h
      have hax2 : entryEq a x = false := by simpa using hax
      simp [List.countP_cons, hax2, ih hrest]

theorem inList_eq_false_iff (l : List Entry) (x : Entry) :
    inList l x = false ↔ l.countP (fun e => entryEq e x) = 0 := by
  rw [List.countP_eq_zero]
  simp [inList]

theorem purgeList_countP_zero (what : List Entry) :
    ∀ (lfrom : List Entry) (x : Entry), x ∈ what →
      lfrom.countP (fun e => entryEq e x) ≤ 1 →
      (purgeList what lfrom).countP (fun e => entryEq e x) = 0 := by
  induction what with
  | nil => intro lfrom x hx; cases hx
  | cons w ws ih =>
    intro lfrom x hx hc
    have hrw : purgeList (w :: ws) lfrom =
        purgeList ws (if inList lfrom w then removeFirst lfrom w else lfrom) := rfl
    rcases List.mem_cons.mp hx with rfl | hxs
    · have h0 : (if inList lfrom x then removeFirst lfrom x else lfrom).countP
          (fun e => entryEq e x) = 0 := by
        by_cases hi : inList lfrom x = true
        · rw [if_pos hi]
          have := countP_removeFirst_self lfrom x hi
          omega
        · rw [if_neg hi]
          exact (inList_eq_false_iff lfrom x).mp (by simpa using hi)
      rw [hrw]
      have hle := (purgeList_sublist ws
        (if inList lfrom x then removeFirst lfrom x else lfrom)).countP_le
        (fun e => entryEq e x)
      omega
    · rw [hrw]
      refine ih _ x hxs ?_
      have hle := (show (if inList lfrom w then removeFirst lfrom w else lfrom).Sublist lfrom by
        split
        · exact removeFirst_sublist lfrom w
        · exact List.Sublist.refl lfrom).countP_le (fun e => entryEq e x)
      omega

/--
Counterexample to claim C4 as stated: when `entries` holds two copies of
the same entry (reachable, e.g. an input plugin returning duplicate
entries) and that entry is failed, `purge()` removes only the first
`==`-occurrence (`list.remove`), so an entry present in `failed` still
remains in `entries` after the purge.
-/
theorem claim_C4_purge_counterexample :
    ((⟨[("title", Value.text "A")], []⟩ : Entry) ∈
      ({ initialState false with
          entries := [⟨[("title", Value.text "A")], []⟩,
                      ⟨[("title", Value.text "A")], []⟩],
          failed := [⟨[("title", Value.text "A")], []⟩] } : FeedState).failed)
    ∧ inList (purgeF { initialState false with
          entries := [⟨[("title", Value.text "A")], []⟩,
                      ⟨[("title", Value.text "A")], []⟩],
          failed := [⟨[("title", Value.text "A")], []⟩] }).entries
        ⟨[("title", Value.text "A")], []⟩ = true := by
  decide

/--
Claim C4 (amended): provided `entries`, `accepted` and `rejected` are
duplicate-free under entry equality, after `purge()` no entry present in
`failed` remains in `entries`, `accepted` or `rejected`, no entry
present in `rejected` remains in `entries` or `accepted`, and the failed
purge runs before the rejected purge.
-/
theorem claim_C4_purge_amended (s : FeedState)
    (h1 : List.Pairwise (fun a b => entryEq a b = false) s.entries)
    (h2 : List.Pairwise (fun a b => entryEq a b = false) s.accepted)
    (h3 : List.Pairwise (fun a b => entryEq a b = false) s.rejected) :
    (∀ f ∈ s.failed,
        inList (purgeF s).entries f = false ∧
        inList (purgeF s).accepted f = false ∧
        inList (purgeF s).rejected f = false)
    ∧ (∀ r ∈ (purgeF s).rejected,
        inList (purgeF s).entries r = false ∧
        inList (purgeF s).accepted r = false)
    ∧ purgeF s = purgeRejectedF (purgeFailedF s) := by
  have hent : (purgeF s).entries =
      purgeList (purgeList s.failed s.rejected) (purgeList s.failed s.entries) := rfl
  have hacc : (purgeF s).accepted =
      purgeList (purgeList s.failed s.rejected) (purgeList s.failed s.accepted) := rfl
  have hrej : (purgeF s).rejected = purgeList s.failed s.rejected := rfl
  refine ⟨?_, ?_, rfl⟩
  · intro f hf
    refine ⟨?_, ?_, ?_⟩
    · rw [hent, inList_eq_false_iff]
      have hz : (purgeList s.failed s.entries).countP (fun e => entryEq e f) = 0 :=
        purgeList_countP_zero s.failed s.entries f hf
          (countP_le_one_of_pairwise s.entries f h1)
      have hle := (purgeList_sublist (purgeList s.failed s.rejected)
        (purgeList s.failed s.entries)).countP_le (fun e => entryEq e f)
      omega
    · rw [hacc, inList_eq_false_iff]
      have hz : (purgeList s.failed s.accepted).countP (fun e => entryEq e f) = 0 :=
        purgeList_countP_zero s.failed s.accepted f hf
          (countP_le_one_of_pairwise s.accepted f h2)
      have hle := (purgeList_sublist (purgeList s.failed s.rejected)
        (purgeList s.failed s.accepted)).countP_le (fun e => entryEq e f)
      omega
    · rw [hrej, inList_eq_false_iff]
      exact purgeList_countP_zero s.failed s.rejected f hf
        (countP_le_one_of_pairwise s.rejected f h3)
  · intro r hr
    rw [hrej] at hr
    constructor
    · rw [hent, inList_eq_false_iff]
      refine purgeList_countP_zero _ _ r hr ?_
      have hle := (purgeList_sublist s.failed s.entries).countP_le
        (fun e => entryEq e r)
      have := countP_le_one_of_pairwise s.entries r h1
      omega
    · rw [hacc, inList_eq_false_iff]
      refine purgeList_countP_zero _ _ r hr ?_
      have hle := (purgeList_sublist s.failed s.accepted).countP_le
        (fun e => entryEq e r)
      have := countP_le_one_of_pairwise s.accepted r h2
      omega

/--
Witness for the amended claim C4 at a concrete input: in a feed where
entry A was rejected and then failed while entry B was accepted, the
failed entry A is gone from every list after the purge.
-/
theorem claim_C4_purge_amended_witness :
    inList (purgeF { initialState false with
        entries := [⟨[("title", Value.text "A")], []⟩,
                    ⟨[("title", Value.text "B")], []⟩],
        accepted := [⟨[("title", Value.text "B")], []⟩],
        rejected := [⟨[("title", Value.text "A")], []⟩],
        failed := [⟨[("title", Value.text "A")], []⟩] }).entries
      ⟨[("title", Value.text "A")], []⟩ = false ∧
    inList (purgeF { initialState false with
        entries := [⟨[("title", Value.text "A")], []⟩,
                    ⟨[("title", Value.text "B")], []⟩],
        accepted := [⟨[("title", Value.text "B")], []⟩],
        rejected := [⟨[("title", Value.text "A")], []⟩],
        failed := [⟨[("title", Value.text "A")], []⟩] }).accepted
      ⟨[("title", Value.text "A")], []⟩ = false ∧
    inList (purgeF { initialState false with
        entries := [⟨[("title", Value.text "A")], []⟩,
                    ⟨[("title", Value.text "B")], []⟩],
        accepted := [⟨[("title", Value.text "B")], []⟩],
        rejected := [⟨[("title", Value.text "A")], []⟩],
        failed := [⟨[("title", Value.text "A")], []⟩] }).rejected
      ⟨[("title", Value.text "A")], []⟩ = false :=
  (claim_C4_purge_amended
    { initialState false with
        entries := [⟨[("title", Value.text "A")], []⟩,
                    ⟨[("title", Value.text "B")], []⟩],
        accepted := [⟨[("title", Value.text "B")], []⟩],
        rejected := [⟨[("title", Value.text "A")], []⟩],
        failed := [⟨[("title", Value.text "A")], []⟩] }
    (by decide) (by decide) (by decide)).1
    ⟨[("title", Value.text "A")], []⟩ (by decide)

theorem ep_committed (reg : Registry) (fuel : Nat) :
    ∀ (phases : List String) (s : FeedState),
      (executePhases reg fuel phases s).committed = s.committed := by
  intro phases
  induction phases with
  | nil => intro s; rfl
  | cons ph rest ih =>
    intro s
    rw [executePhases]
    by_cases hd : s.disabledPhases.contains ph = true
    · rw [if_pos hd]
      exact ih s
    · rw [if_neg hd]
      have hrc : (runPhase reg fuel ph
          { s with phasesStarted := s.phasesStarted ++ [ph] }).committed =
          s.committed := by
        rw [runPhase, rpl_committed]
      by_cases h1 : (runPhase reg fuel ph
          { s with phasesStarted := s.phasesStarted ++ [ph] }).raised = true
      · rw [if_pos h1]
        exact hrc
      · rw [if_neg h1]
        by_cases h2 : (runPhase reg fuel ph
            { s with phasesStarted := s.phasesStarted ++ [ph] }).aborted = true
        · rw [if_pos h2]
          exact hrc
        · rw [if_neg h2]
          rw [ih]
          exact hrc

theorem ep_aborted_mono (reg : Registry) (fuel : Nat) :
    ∀ (phases : List String) (s : FeedState),
      s.aborted = true → (executePhases reg fuel phases s).aborted = true := by
  intro phases
  induction phases with
  | nil => intro s h; exact h
  | cons ph rest ih =>
    intro s h
    rw [executePhases]
    by_cases hd : s.disabledPhases.contains ph = true
    · rw [if_pos hd]
      exact ih s h
    · rw [if_neg hd]
      have h1 : (runPhase reg fuel ph
          { s with phasesStarted := s.phasesStarted ++ [ph] }).aborted = true := by
        rw [runPhase]
        exact rpl_aborted_mono reg fuel ph (reg ph) _ (by simpa using h)
      by_cases h2 : (runPhase reg fuel ph
          { s with phasesStarted := s.phasesStarted ++ [ph] }).raised = true
      · rw [if_pos h2]
        exact h1
      · rw [if_neg h2]
        rw [if_pos h1]
        exact h1

/--
Claim C3: once a pass of the unit-of-work section of `Feed.execute` sets
the abort flag during the phase loop, the session is never committed
(the loop returns before `session.commit()`), the same holds when a
plugin exception propagates, and the session is closed on every exit
path.
-/
theorem claim_C3_abort_never_commits (reg : Registry) (fuel : Nat)
    (phases : List String) (s : FeedState) (hc : s.committed = false) :
    (runPass reg fuel phases s).closed = true
    ∧ ((runPass reg fuel phases s).aborted = true →
        (runPass reg fuel phases s).committed = false)
    ∧ ((runPass reg fuel phases s).raised = true →
        (runPass reg fuel phases s).committed = false) := by
  have hec : (executePhases reg fuel phases { s with sessionOpen := true }).committed
      = false := by
    rw [ep_committed]
    exact hc
  rw [runPass]
  by_cases hr : (executePhases reg fuel phases { s with sessionOpen := true }).raised = true
  · rw [if_pos hr]
    exact ⟨rfl, fun _ => hec, fun _ => hec⟩
  · rw [if_neg hr]
    by_cases ha : (executePhases reg fuel phases { s with sessionOpen := true }).aborted = true
    · rw [if_pos ha]
      exact ⟨rfl, fun _ => hec, fun _ => hec⟩
    · rw [if_neg ha]
      refine ⟨rfl, ?_, ?_⟩
      · intro hab
        exact absurd (by simpa using hab) ha
      · intro hrr
        exact absurd (by simpa using hrr) hr

/--
Witness for claim C3 at a concrete input: a pass whose filter plugin
aborts closes the session and does not commit.
-/
theorem claim_C3_abort_never_commits_witness :
    (runPass c3Reg 30 feedPhasesExample (initialState false)).closed = true
    ∧ ((runPass c3Reg 30 feedPhasesExample (initialState false)).aborted = true →
        (runPass c3Reg 30 feedPhasesExample (initialState false)).committed = false) ∧
      ((runPass c3Reg 30 feedPhasesExample (initialState false)).raised = true →
        (runPass c3Reg 30 feedPhasesExample (initialState false)).committed = false) :=
  claim_C3_abort_never_commits c3Reg 30 feedPhasesExample (initialState false) rfl

theorem runPhase_phasesStarted (reg : Registry) (fuel : Nat) (ph : String)
    (s : FeedState) : (runPhase reg fuel ph s).phasesStarted = s.phasesStarted := by
  rw [runPhase, rpl_phasesStarted]

theorem runPhase_disabledPhases (reg : Registry) (fuel : Nat) (ph : String)
    (s : FeedState) : (runPhase reg fuel ph s).disabledPhases = s.disabledPhases := by
  rw [runPhase, rpl_disabledPhases]

theorem runPhase_raised_imp_aborted (reg : Registry) (fuel : Nat) (ph : String)
    (s : FeedState) (hra : s.raised = false) :
    (runPhase reg fuel ph s).raised = true → (runPhase reg fuel ph s).aborted = true := by
  rw [runPhase]
  exact rpl_raised_imp_aborted reg fuel ph (reg ph) _ hra

theorem runPhase_abort_count (reg : Registry) (fuel : Nat) (ph : String)
    (s : FeedState) (hab : s.aborted = false) (hnab : ph ≠ "abort") :
    List.count "abort" (runPhase reg fuel ph s).phaseRuns =
      List.count "abort" s.phaseRuns +
        (if (runPhase reg fuel ph s).aborted = true then 1 else 0) := by
  rw [runPhase]
  rw [rpl_abort_count reg fuel ph (reg ph)
    { s with phaseRuns := s.phaseRuns ++ [ph] } hab]
  have hc : List.count "abort" (s.phaseRuns ++ [ph]) = List.count "abort" s.phaseRuns := by
    rw [List.count_append]
    simp [List.count_cons, Ne.symm hnab]
  exact congrArg (fun n => n + _) hc

theorem ep_abort_behaviour (reg : Registry) (fuel : Nat) :
    ∀ (phases : List String) (s : FeedState),
      s.aborted = false → s.raised = false → "abort" ∉ phases →
      (∃ pre post, phases = pre ++ post ∧
        (executePhases reg fuel phases s).phasesStarted =
          s.phasesStarted ++ pre.filter (fun ph => !s.disabledPhases.contains ph) ∧
        (post ≠ [] → (executePhases reg fuel phases s).aborted = true)) ∧
      List.count "abort" (executePhases reg fuel phases s).phaseRuns =
        List.count "abort" s.phaseRuns +
          (if (executePhases reg fuel phases s).aborted = true then 1 else 0) := by
  intro phases
  induction phases with
  | nil =>
    intro s hab hra _
    refine ⟨⟨[], [], rfl, by simp [executePhases], fun hpost => absurd rfl hpost⟩, ?_⟩
    simp [executePhases, hab]
  | cons ph rest ih =>
    intro s hab hra hcont
    have hnab : ph ≠ "abort" := fun hh => hcont (by rw [hh]; exact List.mem_cons_self _ _)
    have hrest : "abort" ∉ rest := fun hh => hcont (List.mem_cons_of_mem _ hh)
    rw [executePhases]
    by_cases hd : s.disabledPhases.contains ph = true
    · rw [if_pos hd]
      obtain ⟨⟨pre, post, hsplit, hstart, himp⟩, hcount⟩ := ih s hab hra hrest
      refine ⟨⟨ph :: pre, post, by rw [hsplit, List.cons_append], ?_, himp⟩, hcount⟩
      rw [List.filter_cons]
      simp only [hd, Bool.not_true]
      simpa using hstart
    · rw [if_neg hd]
      have hd2 : ph ∉ s.disabledPhases := by simpa using hd
      have hs1started := runPhase_phasesStarted reg fuel ph
        { s with phasesStarted := s.phasesStarted ++ [ph] }
      have hs1disabled := runPhase_disabledPhases reg fuel ph
        { s with phasesStarted := s.phasesStarted ++ [ph] }
      have hcount1 := runPhase_abort_count reg fuel ph
        { s with phasesStarted := s.phasesStarted ++ [ph] } hab hnab
      have hria := runPhase_raised_imp_aborted reg fuel ph
        { s with phasesStarted := s.phasesStarted ++ [ph] } hra
      by_cases h1 : (runPhase reg fuel ph
          { s with phasesStarted := s.phasesStarted ++ [ph] }).raised = true
      · rw [if_pos h1]
        refine ⟨⟨[ph], rest, rfl, ?_, fun _ => hria h1⟩, ?_⟩
        · rw [hs1started, List.filter_cons]
          simp [hd2]
        · exact hcount1
      · rw [if_neg h1]
        by_cases h2 : (runPhase reg fuel ph
            { s with phasesStarted := s.phasesStarted ++ [ph] }).aborted = true
        · rw [if_pos h2]
          refine ⟨⟨[ph], rest, rfl, ?_, fun _ => h2⟩, ?_⟩
          · rw [hs1started, List.filter_cons]
            simp [hd2]
          · exact hcount1
        · rw [if_neg h2]
          obtain ⟨⟨pre, post, hsplit, hstart, himp⟩, hcount⟩ := ih
            (runPhase reg fuel ph { s with phasesStarted := s.phasesStarted ++ [ph] })
            (by simpa using h2) (by simpa using h1) hrest
          refine ⟨⟨ph :: pre, post, by rw [hsplit, List.cons_append], ?_, himp⟩, ?_⟩
          · rw [hstart, hs1started, hs1disabled, List.filter_cons]
            have hdb : s.disabledPhases.contains ph = false := by
              simpa using hd
            rw [hdb]
            simp only [Bool.not_false, if_pos]
            rw [List.append_assoc]
            rfl
          · rw [hcount]
            have hc1z : List.count "abort" (runPhase reg fuel ph
                { s with phasesStarted := s.phasesStarted ++ [ph] }).phaseRuns =
                List.count "abort" s.phaseRuns := by
              rw [hcount1, if_neg h2]
              simp
            rw [hc1z]

theorem rpl_abortPhase_all (reg : Registry) :
    ∀ (ps : List PluginSpec) (fuel : Nat) (s : FeedState),
      s.aborted = true → s.raised = false → s.unitTest = false →
      s.disabledPhases.contains "abort" = false → ps.length ≤ fuel →
      (runPhaseList reg fuel "abort" ps s).pluginRuns =
        s.pluginRuns ++ ps.map (fun p => ("abort", p.name)) := by
  intro ps
  induction ps with
  | nil =>
    intro fuel s _ _ _ _ _
    cases fuel <;> simp [runPhaseList]
  | cons p rest ih =>
    intro fuel s hab hra hut hd hlen
    cases fuel with
    | zero => simp at hlen
    | succ n =>
      rw [runPhaseList]
      rw [if_neg (by rw [hd]; simp : ¬s.disabledPhases.contains "abort" = true)]
      have hm : (markPlugin "abort" p s).aborted = true := by simpa using hab
      obtain ⟨hpr, hab2, hplug, hdis2⟩ := actStep_of_aborted
        (runPhaseList reg n "abort" (reg "abort")) "abort" p
        (markPlugin "abort" p s) hm
      have hra2 : (actStep (runPhaseList reg n "abort" (reg "abort")) "abort" p
          (markPlugin "abort" p s)).raised = false := by
        rw [actStep_raised_of_aborted _ _ _ _ hm (by simpa using hut)]
        simpa using hra
      rw [if_neg (by rw [hra2]; simp : ¬(actStep (runPhaseList reg n "abort" (reg "abort"))
        "abort" p (markPlugin "abort" p s)).raised = true)]
      have hee : entry_events.contains "abort" = false := by decide
      rw [if_neg (by rw [hee]; simp : ¬entry_events.contains "abort" = true)]
      have hcond : ((purgeF (actStep (runPhaseList reg n "abort" (reg "abort")) "abort" p
          (markPlugin "abort" p s))).aborted && !("abort" == "abort")) = false := by
        simp
      rw [if_neg (by rw [hcond]; simp : ¬((purgeF (actStep (runPhaseList reg n "abort"
        (reg "abort")) "abort" p (markPlugin "abort" p s))).aborted
          && !("abort" == "abort")) = true)]
      rw [ih n (purgeF (actStep (runPhaseList reg n "abort" (reg "abort")) "abort" p
          (markPlugin "abort" p s)))
        (by simpa using hab2)
        (by simpa using hra2)
        (by rw [purgeF_unitTest, actStep_unitTest _ _ _ _
              (fun x => rpl_unitTest reg n "abort" (reg "abort") x)]
            simpa using hut)
        (by rw [purgeF_disabledPhases, hdis2]
            simpa using hd)
        (by simpa using Nat.le_of_succ_le_succ hlen)]
      rw [purgeF_pluginRuns, hplug, markPlugin_pluginRuns]
      simp

theorem ep_abort_stops (reg : Registry) (fuel : Nat) :
    ∀ (pre post : List String) (s : FeedState),
      s.aborted = false →
      (executePhases reg fuel pre s).aborted = true →
      executePhases reg fuel (pre ++ post) s = executePhases reg fuel pre s := by
  intro pre
  induction pre with
  | nil =>
    intro post s hs habort
    rw [executePhases] at habort
    rw [hs] at habort
    cases habort
  | cons ph rest ih =>
    intro post s hs habort
    rw [List.cons_append]
    simp only [executePhases] at habort ⊢
    by_cases hd : s.disabledPhases.contains ph = true
    · rw [if_pos hd] at habort
      rw [if_pos hd, if_pos hd]
      exact ih post s hs habort
    · rw [if_neg hd] at habort
      rw [if_neg hd, if_neg hd]
      by_cases h1 : (runPhase reg fuel ph
          { s with phasesStarted := s.phasesStarted ++ [ph] }).raised = true
      · rw [if_pos h1, if_pos h1]
      · rw [if_neg h1] at habort
        rw [if_neg h1, if_neg h1]
        by_cases h2 : (runPhase reg fuel ph
            { s with phasesStarted := s.phasesStarted ++ [ph] }).aborted = true
        · rw [if_pos h2, if_pos h2]
        · rw [if_neg h2] at habort
          rw [if_neg h2, if_neg h2]
          exact ih post _ (by simpa using h2) habort

theorem rpl_abort_stops (reg : Registry) :
    ∀ (fuel : Nat) (phase : String) (ps1 ps2 : List PluginSpec) (s : FeedState),
      phase ≠ "abort" →
      s.aborted = false →
      (runPhaseList reg fuel phase ps1 s).aborted = true →
      runPhaseList reg fuel phase (ps1 ++ ps2) s = runPhaseList reg fuel phase ps1 s := by
  intro fuel
  induction fuel with
  | zero =>
    intro phase ps1 ps2 s _ hs habort
    rw [runPhaseList] at habort
    rw [hs] at habort
    cases habort
  | succ n ih =>
    intro phase ps1 ps2 s hph hs habort
    cases ps1 with
    | nil =>
      rw [runPhaseList] at habort
      rw [hs] at habort
      cases habort
    | cons p rest =>
      rw [List.cons_append]
      simp only [runPhaseList] at habort ⊢
      by_cases hd : s.disabledPhases.contains phase = true
      · rw [if_pos hd, if_pos hd]
      · rw [if_neg hd] at habort
        rw [if_neg hd, if_neg hd]
        by_cases h1 : (actStep (runPhaseList reg n "abort" (reg "abort")) phase p
            (markPlugin phase p s)).raised = true
        · rw [if_pos h1, if_pos h1]
        · rw [if_neg h1] at habort
          rw [if_neg h1, if_neg h1]
          by_cases hcond : ((if entry_events.contains phase
              then actStep (runPhaseList reg n "abort" (reg "abort")) phase p
                (markPlugin phase p s)
              else purgeF (actStep (runPhaseList reg n "abort" (reg "abort")) phase p
                (markPlugin phase p s))).aborted && !(phase == "abort")) = true
          · rw [if_pos hcond, if_pos hcond]
          · rw [if_neg hcond] at habort
            rw [if_neg hcond, if_neg hcond]
            have hbph : (phase == "abort") = false := by
              simpa using hph
            have hs3 : (if entry_events.contains phase
                then actStep (runPhaseList reg n "abort" (reg "abort")) phase p
                  (markPlugin phase p s)
                else purgeF (actStep (runPhaseList reg n "abort" (reg "abort")) phase p
                  (markPlugin phase p s))).aborted = false := by
              by_cases hx : (if entry_events.contains phase
                  then actStep (runPhaseList reg n "abort" (reg "abort")) phase p
                    (markPlugin phase p s)
                  else purgeF (actStep (runPhaseList reg n "abort" (reg "abort")) phase p
                    (markPlugin phase p s))).aborted = true
              · exact absurd (by rw [hx, hbph]; rfl) hcond
              · simpa using hx
            exact ih phase rest ps2 _ hph hs3 habort

/--
Claim C2: once the abort flag becomes set during phase N of the main
loop, no phase after N in the fixed phase order is executed: running any
further phases after a phase prefix that ended aborted changes nothing
(the whole feed state, ghost logs included, is that of the prefix
alone), and likewise within a non-abort phase no further plugin runs
once the flag is set (the abort check after every plugin).  Moreover the
abort lifecycle phase runs exactly once per abort (the ghost count of
`__run_phase('abort')` invocations is one exactly when the run aborted,
and the started phases form a prefix of the enabled phase order whose
remainder can be nonempty only because the run aborted), a second call
to `Feed.abort` is a no-op, and the per-plugin abort-flag check is
skipped while the abort phase itself runs, so every abort-phase plugin
is invoked to completion even though the flag is set.
-/
theorem claim_C2_abort_stops_later_phases (reg : Registry) :
    (∀ (fuel : Nat) (pre post : List String) (s : FeedState),
      s.aborted = false →
      (executePhases reg fuel pre s).aborted = true →
      executePhases reg fuel (pre ++ post) s = executePhases reg fuel pre s)
    ∧ (∀ (fuel : Nat) (phase : String) (ps1 ps2 : List PluginSpec) (s : FeedState),
      phase ≠ "abort" → s.aborted = false →
      (runPhaseList reg fuel phase ps1 s).aborted = true →
      runPhaseList reg fuel phase (ps1 ++ ps2) s = runPhaseList reg fuel phase ps1 s)
    ∧ (∀ (fuel : Nat) (phases : List String) (s : FeedState),
      s.aborted = false → s.raised = false → "abort" ∉ phases →
      (∃ pre post, phases = pre ++ post ∧
        (executePhases reg fuel phases s).phasesStarted =
          s.phasesStarted ++ pre.filter (fun ph => !s.disabledPhases.contains ph) ∧
        (post ≠ [] → (executePhases reg fuel phases s).aborted = true)) ∧
      List.count "abort" (executePhases reg fuel phases s).phaseRuns =
        List.count "abort" s.phaseRuns +
          (if (executePhases reg fuel phases s).aborted = true then 1 else 0))
    ∧ (∀ (fuel : Nat) (s : FeedState), s.aborted = true → abortFn reg fuel s = s)
    ∧ (∀ (ps : List PluginSpec) (fuel : Nat) (s : FeedState),
        s.aborted = true → s.raised = false → s.unitTest = false →
        s.disabledPhases.contains "abort" = false → ps.length ≤ fuel →
        (runPhaseList reg fuel "abort" ps s).pluginRuns =
          s.pluginRuns ++ ps.map (fun p => ("abort", p.name))) :=
  ⟨fun fuel pre post s h1 h2 => ep_abort_stops reg fuel pre post s h1 h2,
   fun fuel phase ps1 ps2 s h1 h2 h3 => rpl_abort_stops reg fuel phase ps1 ps2 s h1 h2 h3,
   fun fuel phases s h1 h2 h3 => ep_abort_behaviour reg fuel phases s h1 h2 h3,
   fun fuel s h => by rw [abortFn, if_pos h],
   fun ps fuel s h1 h2 h3 h4 h5 => rpl_abortPhase_all reg ps fuel s h1 h2 h3 h4 h5⟩

/--
Witness for claim C2 at concrete inputs: after a prefix aborting in the
filter phase, appending the remaining phases changes nothing; appending
a plugin after an aborting filter plugin changes nothing; an aborting
filter stops the remaining phases with one abort-phase run; a second
abort call is a no-op; and both abort-phase cleanup plugins run despite
the flag.
-/
theorem claim_C2_abort_stops_later_phases_witness :
    executePhases c2Reg 30 (["input", "filter"] ++ ["download", "output"])
        (initialState false) =
      executePhases c2Reg 30 ["input", "filter"] (initialState false)
    ∧ runPhaseList c2Reg 30 "filter"
        ([⟨"abort_plugin", Act.callAbort⟩] ++ [⟨"late_plugin", Act.nop⟩])
        (initialState false) =
      runPhaseList c2Reg 30 "filter" [⟨"abort_plugin", Act.callAbort⟩]
        (initialState false)
    ∧ ((∃ pre post, feedPhasesExample = pre ++ post ∧
        (executePhases c2Reg 30 feedPhasesExample (initialState false)).phasesStarted =
          (initialState false).phasesStarted ++
            pre.filter (fun ph => !(initialState false).disabledPhases.contains ph) ∧
        (post ≠ [] →
          (executePhases c2Reg 30 feedPhasesExample (initialState false)).aborted = true)) ∧
      List.count "abort"
          (executePhases c2Reg 30 feedPhasesExample (initialState false)).phaseRuns =
        List.count "abort" (initialState false).phaseRuns +
          (if (executePhases c2Reg 30 feedPhasesExample (initialState false)).aborted = true
           then 1 else 0))
    ∧ abortFn c2Reg 5 { initialState false with aborted := true } =
        { initialState false with aborted := true }
    ∧ (runPhaseList c2Reg 3 "abort" [⟨"cleanup1", Act.nop⟩, ⟨"cleanup2", Act.callAbort⟩]
          { initialState false with aborted := true }).pluginRuns =
        ({ initialState false with aborted := true } : FeedState).pluginRuns ++
          ([⟨"cleanup1", Act.nop⟩, ⟨"cleanup2", Act.callAbort⟩] : List PluginSpec).map
            (fun p => ("abort", p.name)) :=
  ⟨(claim_C2_abort_stops_later_phases c2Reg).1 30 ["input", "filter"]
      ["download", "output"] (initialState false) rfl (by decide),
   (claim_C2_abort_stops_later_phases c2Reg).2.1 30 "filter"
      [⟨"abort_plugin", Act.callAbort⟩] [⟨"late_plugin", Act.nop⟩]
      (initialState false) (by decide) rfl (by decide),
   (claim_C2_abort_stops_later_phases c2Reg).2.2.1 30 feedPhasesExample
      (initialState false) rfl rfl (by decide),
   (claim_C2_abort_stops_later_phases c2Reg).2.2.2.1 5
      { initialState false with aborted := true } rfl,
   (claim_C2_abort_stops_later_phases c2Reg).2.2.2.2
      [⟨"cleanup1", Act.nop⟩, ⟨"cleanup2", Act.callAbort⟩] 3
      { initialState false with aborted := true } rfl rfl rfl (by decide) (by decide)⟩

/--
Claim C1: in an execution where the pass requests a rerun every time and
never aborts or raises (all passes are identical because `_reset` clears
the per-pass state), `Feed.execute` entered with a fresh rerun counter
runs the pass exactly 6 times — 1 initial execution plus
`max_reruns = 5` reruns — and when the counter reaches the bound it is
reset to zero, so a later independent execution chain can again rerun up
to the bound.
-/
theorem claim_C1_rerun_bound (reg : Registry) (fuel : Nat) (phases : List String)
    (opts : Options) (disableArg : List String) (entriesArg : List Entry)
    (s3 : FeedState)
    (hprep : preparePass reg fuel phases [] disableArg entriesArg opts.unitTest =
      Except.ok s3)
    (hm : opts.validateMode = false)
    (hab3 : s3.aborted = false)
    (hrerun : (runPass reg fuel phases s3).rerun = true)
    (hab : (runPass reg fuel phases s3).aborted = false)
    (hra : (runPass reg fuel phases s3).raised = false) :
    Feed.execute reg fuel phases opts [] disableArg entriesArg 0 =
      Except.ok ⟨runPass reg fuel phases s3, 0, 6⟩ := by
  have key : ∀ gas rc, gas + rc = max_reruns + 1 → 1 ≤ gas →
      executeAux reg fuel phases opts [] disableArg entriesArg gas rc =
        Except.ok ⟨runPass reg fuel phases s3, 0, gas⟩ := by
    intro gas
    induction gas with
    | zero =>
      intro rc _ h1
      exact absurd h1 (by omega)
    | succ n ihg =>
      intro rc hsum _
      rw [executeAux, hprep]
      simp only [hab3, Bool.false_eq_true, if_false]
      rw [if_neg (by simp : ¬(([] : List String) ≠ [] ∧ opts.unitTest = true))]
      rw [if_neg (by rw [hm]; simp : ¬opts.validateMode = true)]
      rw [if_neg (by rw [hra]; simp : ¬(runPass reg fuel phases s3).raised = true)]
      rw [if_neg (by rw [hab]; simp : ¬(runPass reg fuel phases s3).aborted = true)]
      rw [if_pos hrerun]
      by_cases hrc : max_reruns ≤ rc
      · rw [if_pos hrc]
        have hn : n = 0 := by
          have : rc ≤ max_reruns := by omega
          omega
        subst hn
        rfl
      · rw [if_neg hrc]
        rw [ihg (rc + 1) (by omega) (by omega)]
  rw [show Feed.execute reg fuel phases opts [] disableArg entriesArg 0 =
    executeAux reg fuel phases opts [] disableArg entriesArg 6 0 from rfl]
  exact key 6 0 (by rfl) (by omega)

/--
Witness for claim C1 at a concrete input: with a plugin that always
requests a rerun, the feed executes 6 passes and ends with the rerun
counter reset to zero.
-/
theorem claim_C1_rerun_bound_witness :
    Feed.execute c1Reg 10 ["input", "output"] ⟨false, false⟩ [] [] [] 0 =
      Except.ok ⟨runPass c1Reg 10 ["input", "output"] (initialState false), 0, 6⟩ :=
  claim_C1_rerun_bound c1Reg 10 ["input", "output"] ⟨false, false⟩ [] []
    (initialState false) rfl rfl rfl (by decide) (by decide) (by decide)

end Flexget
